import Mathlib

/-!
Shallow embedding of the order approval workflow of the
project_mutanda_django repository (directory src/orders): the data model
(models.py), the request validation layer (serializers.py) and the
transition endpoints (views.py).

Modelling conventions:
* Decimal money columns (two decimal places) become integer cent
  amounts, so the placeholder Decimal 0.01 becomes the integer 1.
* auto_now / timestamp columns are omitted; the wall-clock year and the
  millisecond timestamp that generate_order_number reads are passed in
  as explicit arguments.
* status, stage, action and role columns stay strings, exactly the
  literals the source uses.
* every endpoint returns Except Err DB: an error models the HTTP error
  response together with the rollback of the enclosing
  transaction.atomic block, .ok is the committed database.
* notification title/message and activity description/metadata bodies
  are free text built for display; only their structured fields
  (order, recipient/actor, type, the statuses) are modelled.
-/

namespace Mutanda

/-- a user row: the only fields the order workflow reads are the id and
the role string. -/
structure UserR where
  id : Nat
  role : String
  deriving DecidableEq

/-- orders.models.Order: workflow-relevant columns (timestamps omitted). -/
structure OrderR where
  id : Nat
  orderNumber : String
  orderType : String
  title : String
  description : String
  quantity : Nat
  unit : String
  urgency : String
  estimatedCost : Int
  supplier : Option String
  requestedBy : Nat
  status : String
  rejectionReason : Option String
  revisionReason : Option String
  revisionRequestedBy : Option Nat
  quoteAmount : Option Int
  quoteSupplier : Option String
  quoteNotes : Option String
  quoteSubmittedBy : Option Nat
  paymentAmount : Option Int
  paymentMethod : Option String
  paymentReference : Option String
  paymentNotes : Option String
  paymentCompletedBy : Option Nat
  deriving DecidableEq

/-- orders.models.OrderItem. -/
structure OrderItemR where
  id : Nat
  orderId : Nat
  itemName : String
  isCustomItem : Bool
  quantity : Nat
  unit : String
  estimatedCost : Option Int
  deriving DecidableEq

/-- orders.models.QuoteOption (vat/po-number columns, which no endpoint
in views.py writes, are omitted). -/
structure QuoteOptionR where
  id : Nat
  orderId : Nat
  supplierName : String
  supplierAddress : Option String
  buyingCompany : Option String
  quotedAmount : Int
  deliveryTime : Option String
  notes : Option String
  isRecommended : Bool
  isSelected : Bool
  submittedBy : Option Nat
  deriving DecidableEq

/-- orders.models.QuoteOptionItem. -/
structure QuoteOptionItemR where
  id : Nat
  quoteOptionId : Nat
  orderItemId : Nat
  unitPrice : Int
  totalPrice : Int
  availability : Option String
  notes : Option String
  isNotAvailable : Bool
  deriving DecidableEq

/-- orders.models.OrderApproval: the approval ledger, one row per
decision; the model declares unique_together (order, stage). -/
structure ApprovalR where
  orderId : Nat
  stage : String
  approver : Nat
  action : String
  notes : String
  requiresRevision : Bool
  revisionCompleted : Bool
  deriving DecidableEq

/-- orders.models.OrderActivity: the append-only audit log.  The source
passes previous_status/new_status through log_order_activity's **metadata
into the JSON metadata blob; they are kept here as structured fields. -/
structure ActivityR where
  orderId : Nat
  atype : String
  userId : Nat
  prevStatus : Option String
  newStatus : Option String
  deriving DecidableEq

/-- orders.models.OrderNotification (title/message display text omitted). -/
structure NotificationR where
  orderId : Nat
  recipient : Nat
  ntype : String
  deriving DecidableEq

/-- the relational store the workflow engine mutates.  nextId is the
shared autoincrement primary-key counter. -/
structure DB where
  users : List UserR
  orders : List OrderR
  items : List OrderItemR
  quoteOptions : List QuoteOptionR
  quoteItems : List QuoteOptionItemR
  approvals : List ApprovalR
  activities : List ActivityR
  notifications : List NotificationR
  nextId : Nat
  deriving DecidableEq

/-- the error taxonomy of the HTTP layer: 404, 400 precondition (wrong
current status), 400 validation (bad input), 403, and database
integrity errors that abort the transaction. -/
inductive Err where
  | notFound
  | precondition
  | validation
  | forbidden
  | integrity
  deriving DecidableEq

/-- Order.objects.get(id=oid) / self.get_object(). -/
def findOrder (l : List OrderR) (oid : Nat) : Option OrderR :=
  l.find? (fun x => x.id = oid)

def getOrder (db : DB) (oid : Nat) : Option OrderR :=
  findOrder db.orders oid

/-- request.user.role. -/
def roleOf (db : DB) (uid : Nat) : Option String :=
  (db.users.find? (fun u => u.id = uid)).map (fun u => u.role)

/-- order.save(): write back the (single) row with this id. -/
def setOrderRow (db : DB) (o : OrderR) : DB :=
  { db with orders := db.orders.map (fun x => if x.id = o.id then o else x) }

/-- OrderActivity.objects.create (log_order_activity). -/
def addActivity (db : DB) (a : ActivityR) : DB :=
  { db with activities := a :: db.activities }

/-- OrderNotification.objects.create (create_notification). -/
def addNotification (db : DB) (n : NotificationR) : DB :=
  { db with notifications := n :: db.notifications }

/-- the fan-out loops `for u in User.objects.filter(role__in=roles):
create_notification(...)`. -/
def notifyUsersWithRoles (db : DB) (roles : List String) (oid : Nat)
    (nt : String) : DB :=
  { db with notifications :=
      (db.users.filterMap
        (fun u => if u.role ∈ roles then some (NotificationR.mk oid u.id nt)
                  else none)) ++ db.notifications }

/-- the (order, stage) key the ledger is unique on. -/
def approvalKey (a : ApprovalR) : Nat × String :=
  (a.orderId, a.stage)

/-- OrderApproval.objects.update_or_create(order=..., stage=...,
defaults=...): update the matching row if one exists, create otherwise. -/
def upsertApproval (l : List ApprovalR) (a : ApprovalR) : List ApprovalR :=
  if l.any (fun x => x.orderId = a.orderId ∧ x.stage = a.stage) then
    l.map (fun x => if x.orderId = a.orderId ∧ x.stage = a.stage then a else x)
  else a :: l

def recordApproval (db : DB) (a : ApprovalR) : DB :=
  { db with approvals := upsertApproval db.approvals a }

/-! ## Order number generation (views.generate_order_number) -/

/-- Python str.upper(), modelled per code point on the character list. -/
def strUpper (s : String) : String :=
  String.mk (s.data.map Char.toUpper)

/-- Python str.startswith, modelled on the character lists. -/
def strStartsWith (s pfx : String) : Bool :=
  s.data.take pfx.data.length = pfx.data

/-- Python str.split(sep) for a single-character separator, modelled on
the character list (split('-') always yields at least one piece). -/
def splitOnCharFn (c : Char) : List Char → List (List Char)
  | [] => [[]]
  | a :: rest =>
    match splitOnCharFn c rest, decide (a = c) with
    | r, true => [] :: r
    | [], false => [[a]]
    | h :: t, false => (a :: h) :: t

def splitDash (s : String) : List String :=
  (splitOnCharFn '-' s.data).map String.mk

/-- order_type.upper()[:3]. -/
def typeCode (t : String) : String :=
  (strUpper t).take 3

/-- the Python format spec 04d: decimal digits, zero-padded on the left
to a width of at least four. -/
def format4 (n : Nat) : String :=
  let s := toString n
  String.mk (List.replicate (4 - s.length) '0') ++ s

/-- the order-number shape the generator emits:
TYPECODE-YEAR-(zero-padded sequence). -/
def orderNumOf (t : String) (year n : Nat) : String :=
  typeCode t ++ "-" ++ toString year ++ "-" ++ format4 n

/-- s.split('-')[-1]. -/
def lastSegment (s : String) : String :=
  (splitDash s).getLast!

/-- Python int(s) for a plain digit string, modelled on the character
list; none models the ValueError int() raises on anything else. -/
def strToNatFn (s : String) : Option Nat :=
  if ¬ s.data.isEmpty ∧ s.data.all Char.isDigit then
    some (s.data.foldl (fun n c => n * 10 + (c.toNat - 48)) 0)
  else none

/-- lexicographic comparison of the character lists by code point, the
ordering order_by('-order_number') sorts by. -/
def charListLt : List Char → List Char → Bool
  | [], [] => false
  | [], _ :: _ => true
  | _ :: _, [] => false
  | a :: as, b :: bs =>
    if a.toNat < b.toNat then true
    else if b.toNat < a.toNat then false
    else charListLt as bs

def strLt (a b : String) : Bool := charListLt a.data b.data

/-- Order.objects.filter(...).order_by('-order_number').first(): the
lexicographically greatest element. -/
def maxString (l : List String) : Option String :=
  l.foldl (fun acc s =>
    match acc with
    | none => some s
    | some m => some (if strLt m s then s else m)) none

/-- the seed of the probe loop: one past the numeric tail of the highest
existing number with this type/year, 1 when none exists.  Python's
int() raises on a non-numeric tail (there is no try/except in
views.generate_order_number), modelled as none. -/
def computeStart (existing : List String) (t : String) (year : Nat) :
    Option Nat :=
  let pfx := typeCode t ++ "-" ++ toString year ++ "-"
  match maxString (existing.filter (fun s => strStartsWith s pfx)) with
  | none => some 1
  | some m => (strToNatFn (lastSegment m)).map (fun k => k + 1)

/-- the collision probe: try count, count+1, ... while the candidate
collides, for at most the given number of attempts. -/
def probeLoop (existing : List String) (t : String) (year : Nat) :
    Nat → Nat → Option String
  | _, 0 => none
  | count, fuel + 1 =>
    let cand := orderNumOf t year count
    if existing.contains cand then probeLoop existing t year (count + 1) fuel
    else some cand

/-- the body of generate_order_number once the start sequence is known:
probe for at most 100 attempts, on exhaustion fall back to the
timestamp-derived 4-digit suffix int(time.time()*1000) % 10000. -/
def genFrom (existing : List String) (t : String) (start ts year : Nat) :
    String :=
  match probeLoop existing t year start 100 with
  | some s => s
  | none => orderNumOf t year (ts % 10000)

/-- views.generate_order_number(order_type), reading the existing order
numbers, the current year and the millisecond clock. -/
def generate_order_number (existing : List String) (t : String)
    (year ts : Nat) : Option String :=
  (computeStart existing t year).map (fun start => genFrom existing t start ts year)

/-! ## Serializer layer (serializers.py)

A Raw* structure is the JSON request body: every key optional, unknown
keys allowed.  The corresponding *Data structure is serializer
.validated_data: a dict that holds exactly the serializer's declared
fields, so a declared required field is always present (it stays an
Option because the view still reads it with dict .get) and an
undeclared key of the request is dropped. -/

/-- one element of a quote's item_quotes list as sent by the client.
is_not_available is what the client may send; QuoteOptionItemCreateSerializer
does not declare that field. -/
structure RawItemQuote where
  order_item_id : Option Nat
  unit_price : Option Int
  total_price : Option Int
  availability : Option String
  notes : Option String
  is_not_available : Option Bool
  deriving DecidableEq

/-- QuoteOptionItemCreateSerializer.validated_data. -/
structure ItemQuoteData where
  order_item_id : Nat
  unit_price : Option Int
  total_price : Option Int
  availability : Option String
  notes : Option String
  is_not_available : Option Bool
  deriving DecidableEq

/-- QuoteOptionItemCreateSerializer: order_item_id, unit_price and
total_price are required, the prices carry min_value=0.01; availability
and notes are optional; is_not_available is not a declared field and is
dropped from validated_data. -/
def validateItemQuote (r : RawItemQuote) : Except Err ItemQuoteData :=
  match r.order_item_id, r.unit_price, r.total_price with
  | some oi, some up, some tp =>
    if up < (1 : Int) then .error .validation
    else if tp < (1 : Int) then .error .validation
    else .ok { order_item_id := oi, unit_price := some up,
               total_price := some tp, availability := r.availability,
               notes := r.notes, is_not_available := none }
  | _, _, _ => .error .validation

/-- one quote option as sent by the client. -/
structure RawQuote where
  supplier_name : Option String
  supplier_address : Option String
  buying_company : Option String
  quoted_amount : Option Int
  delivery_time : Option String
  notes : Option String
  is_recommended : Option Bool
  item_quotes : Option (List RawItemQuote)
  deriving DecidableEq

/-- QuoteOptionCreateSerializer.validated_data (is_recommended defaults
to the model default False when absent; an absent item_quotes list is
read back by the view with .pop('item_quotes', [])). -/
structure QuoteData where
  supplier_name : String
  supplier_address : Option String
  buying_company : Option String
  quoted_amount : Int
  delivery_time : Option String
  notes : Option String
  is_recommended : Bool
  item_quotes : List ItemQuoteData
  deriving DecidableEq

/-- the many=True item_quotes child validation. -/
def validateItemQuoteList : List RawItemQuote → Except Err (List ItemQuoteData)
  | [] => .ok []
  | r :: rest =>
    match validateItemQuote r with
    | .error e => .error e
    | .ok q =>
      match validateItemQuoteList rest with
      | .error e => .error e
      | .ok qs => .ok (q :: qs)

/-- QuoteOptionCreateSerializer: supplier_name is a required non-blank
CharField, quoted_amount is required with validate_quoted_amount
rejecting values ≤ 0 and the model MinValueValidator rejecting values
below 0.01 (jointly: anything below one cent fails). -/
def validateQuote (r : RawQuote) : Except Err QuoteData :=
  match r.supplier_name, r.quoted_amount with
  | some sn, some qa =>
    if sn = "" then .error .validation
    else if qa < (1 : Int) then .error .validation
    else
      match validateItemQuoteList (r.item_quotes.getD []) with
      | .error e => .error e
      | .ok iqs =>
        .ok { supplier_name := sn, supplier_address := r.supplier_address,
              buying_company := r.buying_company, quoted_amount := qa,
              delivery_time := r.delivery_time, notes := r.notes,
              is_recommended := r.is_recommended.getD false,
              item_quotes := iqs }
  | _, _ => .error .validation

/-- the number of quotes of the request flagged recommended, as
SubmitQuotesSerializer.validate_quotes counts them. -/
def recommendedCount (raw : List RawQuote) : Nat :=
  (raw.filter (fun q => q.is_recommended.getD false)).length

/-- the many=True child validation: validate the quotes one by one,
failing on the first invalid one. -/
def validateQuoteList : List RawQuote → Except Err (List QuoteData)
  | [] => .ok []
  | r :: rest =>
    match validateQuote r with
    | .error e => .error e
    | .ok q =>
      match validateQuoteList rest with
      | .error e => .error e
      | .ok qs => .ok (q :: qs)

/-- SubmitQuotesSerializer: validate each quote, then require a
non-empty list with exactly one recommended quote. -/
def validateSubmitQuotes (raw : List RawQuote) : Except Err (List QuoteData) :=
  match validateQuoteList raw with
  | .error e => .error e
  | .ok qs =>
    if qs.length = 0 then .error .validation
    else if (qs.filter (fun q => q.is_recommended)).length = 0 then .error .validation
    else if (qs.filter (fun q => q.is_recommended)).length > 1 then .error .validation
    else .ok qs

/-- OrderApprovalActionSerializer: action must be one of the three
choices and notes (absent modelled as "", matching Python falsiness of
both) are required when rejecting or requesting revision.  Returns the
validation error, none when valid. -/
def validateApprovalAction (act notes : String) : Option Err :=
  if act ≠ "approved" ∧ act ≠ "rejected" ∧ act ≠ "revision_requested" then
    some .validation
  else if (act = "rejected" ∨ act = "revision_requested") ∧ notes = "" then
    some .validation
  else none

/-- one item of the order-creation request
(OrderItemCreateSerializer; quantities are naturals, validate_quantity
rejects 0). -/
structure CreateItem where
  item_name : String
  is_custom_item : Option Bool
  quantity : Nat
  unit : Option String
  estimated_cost : Option Int
  deriving DecidableEq

/-- the order-creation request body (OrderCreateSerializer). -/
structure CreatePayload where
  order_type : String
  description : String
  urgency : Option String
  estimated_cost : Int
  supplier : Option String
  items : List CreateItem
  deriving DecidableEq

/-- OrderCreateSerializer validation: order_type a model choice,
estimated_cost above zero (with the model's 0.01 floor), at least one
item, every item quantity positive and every supplied per-item cost at
or above the 0.01 floor. -/
def validateCreate (p : CreatePayload) : Option Err :=
  if p.order_type ≠ "medicine" ∧ p.order_type ≠ "equipment" ∧
      p.order_type ≠ "supplies" then some .validation
  else if p.estimated_cost < (1 : Int) then some .validation
  else if p.items.length = 0 then some .validation
  else if p.items.any (fun i => i.quantity = 0) then some .validation
  else if p.items.any (fun i =>
      match i.estimated_cost with
      | some c => c < (1 : Int)
      | none => false) then some .validation
  else none

/-! ## Transition endpoints (views.OrderViewSet) -/

/-- default value of every optional/denormalized Order column at
creation time. -/
def baseOrder (oid : Nat) (num typ title descr : String) (qty : Nat)
    (unit urg : String) (cost : Int) (supplier : Option String)
    (uid : Nat) (st : String) : OrderR :=
  { id := oid, orderNumber := num, orderType := typ, title := title,
    description := descr, quantity := qty, unit := unit, urgency := urg,
    estimatedCost := cost, supplier := supplier, requestedBy := uid,
    status := st, rejectionReason := none, revisionReason := none,
    revisionRequestedBy := none, quoteAmount := none, quoteSupplier := none,
    quoteNotes := none, quoteSubmittedBy := none, paymentAmount := none,
    paymentMethod := none, paymentReference := none, paymentNotes := none,
    paymentCompletedBy := none }

/-- OrderViewSet.perform_create (with OrderCreateSerializer.create):
validate, generate the order number, derive title/quantity/unit from the
item list, create the order in status pending with its items, log the
creation and notify every manager and super_admin. -/
def perform_create (db : DB) (uid : Nat) (p : CreatePayload) (year ts : Nat) :
    Except Err DB :=
  match validateCreate p with
  | some e => .error e
  | none =>
    match generate_order_number (db.orders.map (fun x => x.orderNumber))
        p.order_type year ts with
    | none => .error .integrity
    | some num =>
      let tqu : String × Nat × String :=
        match p.items with
        | [i] => (i.item_name, i.quantity, i.unit.getD "pieces")
        | _ => ("Multi-item Order - " ++ toString p.items.length ++ " items",
                p.items.foldl (fun s i => s + i.quantity) 0, "items")
      let oid := db.nextId
      let o := baseOrder oid num p.order_type tqu.1 p.description tqu.2.1
        tqu.2.2 (p.urgency.getD "medium") p.estimated_cost p.supplier uid
        "pending"
      let newItems := p.items.enum.map (fun pr =>
        OrderItemR.mk (oid + 1 + pr.1) oid pr.2.item_name
          (pr.2.is_custom_item.getD false) pr.2.quantity
          (pr.2.unit.getD "pieces") pr.2.estimated_cost)
      let db1 := { db with
        orders := db.orders ++ [o],
        items := db.items ++ newItems,
        nextId := oid + 1 + p.items.length }
      let db2 := addActivity db1 ⟨oid, "created", uid, none, none⟩
      .ok (notifyUsersWithRoles db2 ["manager", "super_admin"] oid
        "approval_needed")

/-- OrderViewSet.approve, the legacy admin approval endpoint: serializer
validation, then the pending-status precondition, then the
action-dependent write batch (ledger upsert at stage admin, status
change, activity, notifications). -/
def approve (db : DB) (oid uid : Nat) (act notes : String) : Except Err DB :=
  match getOrder db oid with
  | none => .error .notFound
  | some o =>
    match validateApprovalAction act notes with
    | some e => .error e
    | none =>
      if o.status ≠ "pending" then .error .precondition
      else if act = "approved" then
        let db1 := recordApproval db ⟨oid, "admin", uid, "approved", notes, false, false⟩
        let db2 := setOrderRow db1 { o with status := "approved_by_admin" }
        let db3 := addActivity db2 ⟨oid, "admin_approved", uid, some o.status, some "approved_by_admin"⟩
        let db4 := notifyUsersWithRoles db3 ["finance_manager"] oid "approval_needed"
        .ok (addNotification db4 ⟨oid, o.requestedBy, "approved"⟩)
      else if act = "rejected" then
        let db1 := recordApproval db ⟨oid, "admin", uid, "rejected", notes, false, false⟩
        let db2 := setOrderRow db1 { o with status := "rejected", rejectionReason := some notes }
        let db3 := addActivity db2 ⟨oid, "admin_rejected", uid, some o.status, some "rejected"⟩
        .ok (addNotification db3 ⟨oid, o.requestedBy, "rejected"⟩)
      else
        let db1 := setOrderRow db { o with
          status := "revision_requested_by_admin",
          revisionReason := some notes, revisionRequestedBy := some uid }
        let db2 := recordApproval db1 ⟨oid, "admin", uid, "revision_requested", notes, true, false⟩
        let db3 := addActivity db2 ⟨oid, "revision_requested", uid, some o.status, some "revision_requested_by_admin"⟩
        .ok (addNotification db3 ⟨oid, o.requestedBy, "revision_requested"⟩)

/-- OrderViewSet.manager_approve: serializer validation, the
pending-status precondition, then per-action: ledger upsert at stage
manager_initial, status change, activity log and notification fan-out
(procurement and the requester on approval, the requester otherwise). -/
def manager_approve (db : DB) (oid uid : Nat) (act notes : String) :
    Except Err DB :=
  match getOrder db oid with
  | none => .error .notFound
  | some o =>
    match validateApprovalAction act notes with
    | some e => .error e
    | none =>
      if o.status ≠ "pending" then .error .precondition
      else if act = "approved" then
        let db1 := recordApproval db ⟨oid, "manager_initial", uid, "approved", notes, false, false⟩
        let db2 := setOrderRow db1 { o with status := "approved_by_manager" }
        let db3 := addActivity db2 ⟨oid, "manager_approved", uid, some o.status, some "approved_by_manager"⟩
        let db4 := notifyUsersWithRoles db3 ["procurement"] oid "approval_needed"
        .ok (addNotification db4 ⟨oid, o.requestedBy, "approved"⟩)
      else if act = "rejected" then
        let db1 := recordApproval db ⟨oid, "manager_initial", uid, "rejected", notes, false, false⟩
        let db2 := setOrderRow db1 { o with status := "rejected", rejectionReason := some notes }
        let db3 := addActivity db2 ⟨oid, "manager_rejected", uid, some o.status, some "rejected"⟩
        .ok (addNotification db3 ⟨oid, o.requestedBy, "rejected"⟩)
      else
        let db1 := setOrderRow db { o with
          status := "revision_requested_by_manager",
          revisionReason := some notes, revisionRequestedBy := some uid }
        let db2 := recordApproval db1 ⟨oid, "manager_initial", uid, "revision_requested", notes, true, false⟩
        let db3 := addActivity db2 ⟨oid, "revision_requested", uid, some o.status, some "revision_requested_by_manager"⟩
        .ok (addNotification db3 ⟨oid, o.requestedBy, "revision_requested"⟩)

/-- a decidable no-duplicates check on a list of ids. -/
def nodupIds : List Nat → Bool
  | [] => true
  | x :: xs => !(xs.contains x) && nodupIds xs

/-- QuoteOption.objects.create inside submit_quote. -/
def mkQuoteOption (qid oid uid : Nat) (qd : QuoteData) : QuoteOptionR :=
  { id := qid, orderId := oid, supplierName := qd.supplier_name,
    supplierAddress := qd.supplier_address, buyingCompany := qd.buying_company,
    quotedAmount := qd.quoted_amount, deliveryTime := qd.delivery_time,
    notes := qd.notes, isRecommended := qd.is_recommended,
    isSelected := false, submittedBy := some uid }

/-- QuoteOptionItem.objects.create inside submit_quote: the view reads
is_not_available with .get(…, False) from validated_data (which never
holds the key, see validateItemQuote), forces both prices to 0.01 when
the flag is set and falls back to 0.01 when a price key is absent. -/
def mkQuoteItem (iid qoId : Nat) (iq : ItemQuoteData) : QuoteOptionItemR :=
  let isNa := iq.is_not_available.getD false
  { id := iid, quoteOptionId := qoId, orderItemId := iq.order_item_id,
    unitPrice := if isNa then (1 : Int) else iq.unit_price.getD ((1 : Int)),
    totalPrice := if isNa then (1 : Int) else iq.total_price.getD ((1 : Int)),
    availability := some (iq.availability.getD ""),
    notes := some (iq.notes.getD ""),
    isNotAvailable := isNa }

/-- the quote-creation loop of submit_quote: one QuoteOption per
validated quote (with fresh ids drawn from the counter) and one
QuoteOptionItem per element of its item_quotes list.  Returns the new
option rows, the new item rows and the advanced counter. -/
def buildQuotes (oid uid : Nat) :
    Nat → List QuoteData → List QuoteOptionR × List QuoteOptionItemR × Nat
  | s, [] => ([], [], s)
  | s, qd :: rest =>
    let qo := mkQuoteOption s oid uid qd
    let qis := qd.item_quotes.enum.map (fun pr => mkQuoteItem (s + 1 + pr.1) s pr.2)
    let rec2 := buildQuotes oid uid (s + 1 + qd.item_quotes.length) rest
    (qo :: rec2.1, qis ++ rec2.2.1, rec2.2.2)

/-- OrderViewSet.submit_quote: precondition on status, serializer
validation, then atomically delete this order's existing QuoteOptions
(cascading to their QuoteOptionItems), recreate the submitted set, stamp
the order, upsert the procurement ledger row, log and notify managers.
A foreign-key or unique_together violation among the item quotes raises
inside the transaction and rolls the whole call back. -/
def submit_quote (db : DB) (oid uid : Nat) (raw : List RawQuote) :
    Except Err DB :=
  match getOrder db oid with
  | none => .error .notFound
  | some o =>
    if o.status ≠ "approved_by_manager" ∧ o.status ≠ "procurement_quote_submitted" then
      .error .precondition
    else
      match validateSubmitQuotes raw with
      | .error e => .error e
      | .ok qs =>
        if qs.any (fun qd =>
            !(nodupIds (qd.item_quotes.map (fun iq => iq.order_item_id))) ||
            qd.item_quotes.any (fun iq =>
              !(db.items.any (fun it => it.id = iq.order_item_id)))) then
          .error .integrity
        else
          let deleted := db.quoteOptions.filter (fun q => q.orderId = oid)
          let keptQO := db.quoteOptions.filter (fun q => ¬ q.orderId = oid)
          let keptQI := db.quoteItems.filter (fun qi =>
            ¬ deleted.any (fun q => q.id = qi.quoteOptionId))
          let built := buildQuotes oid uid db.nextId qs
          let db1 := { db with
            quoteOptions := keptQO ++ built.1,
            quoteItems := keptQI ++ built.2.1,
            nextId := built.2.2 }
          let db2 := setOrderRow db1 { o with
            quoteSubmittedBy := some uid,
            status := "procurement_quote_submitted" }
          let db3 := recordApproval db2 ⟨oid, "procurement", uid, "approved",
            toString qs.length ++ " quote options submitted", false, false⟩
          let db4 := addActivity db3 ⟨oid, "quote_submitted", uid,
            some o.status, some "procurement_quote_submitted"⟩
          .ok (notifyUsersWithRoles db4 ["manager"] oid "approval_needed")

/-- OrderViewSet.approve_quote: on approval, select the named quote
(clearing this order's other selections), denormalize its amount,
supplier and notes onto the order, overwrite estimated_cost with the
quoted amount, upsert the manager_quote ledger row, move to
quote_approved_by_manager and notify finance, the requester and the
submitting procurement user; on rejection, only move the order back to
approved_by_manager, log a quote_rejected activity and notify the
submitting procurement user — no ledger row is written.  There is no
notes validation on this endpoint. -/
def approve_quote (db : DB) (oid uid : Nat) (act : String)
    (selectedQuoteId : Option Nat) (notes : String) : Except Err DB :=
  match getOrder db oid with
  | none => .error .notFound
  | some o =>
    if o.status ≠ "procurement_quote_submitted" then .error .precondition
    else if act = "" then .error .validation
    else if act = "approved" then
      match selectedQuoteId with
      | none => .error .validation
      | some qid =>
        match db.quoteOptions.find? (fun q => q.id = qid ∧ q.orderId = oid) with
        | none => .error .notFound
        | some q =>
          let qos1 := db.quoteOptions.map (fun x =>
            if x.orderId = oid then { x with isSelected := false } else x)
          let qos2 := qos1.map (fun x =>
            if x.id = qid then { x with isSelected := true } else x)
          let db1 := { db with quoteOptions := qos2 }
          let db2 := recordApproval db1 ⟨oid, "manager_quote", uid, "approved", notes, false, false⟩
          let db3 := setOrderRow db2 { o with
            quoteAmount := some q.quotedAmount,
            quoteSupplier := some q.supplierName,
            quoteNotes := some (q.notes.getD ""),
            estimatedCost := q.quotedAmount,
            status := "quote_approved_by_manager" }
          let db4 := addActivity db3 ⟨oid, "quote_approved", uid, some o.status, some "quote_approved_by_manager"⟩
          let db5 := notifyUsersWithRoles db4 ["finance_manager"] oid "approval_needed"
          let db6 := addNotification db5 ⟨oid, o.requestedBy, "approved"⟩
          .ok (match o.quoteSubmittedBy with
               | some p => addNotification db6 ⟨oid, p, "approved"⟩
               | none => db6)
    else if act = "rejected" then
      let db1 := setOrderRow db { o with status := "approved_by_manager" }
      let db2 := addActivity db1 ⟨oid, "quote_rejected", uid, some o.status, some "approved_by_manager"⟩
      .ok (match o.quoteSubmittedBy with
           | some p => addNotification db2 ⟨oid, p, "revision_requested"⟩
           | none => db2)
    else .ok db

/-- duplicate removal keeping first occurrences, as iterating the keys
of the quote_selections dict does. -/
def firstDedup : List Nat → List Nat
  | [] => []
  | x :: xs => x :: (firstDedup xs).filter (fun y => ¬ y = x)

/-- supplier names of the quote options with the given ids. -/
def supplierNamesOf (db : DB) (qids : List Nat) : List String :=
  qids.map (fun qid =>
    ((db.quoteOptions.find? (fun q => q.id = qid)).map
      (fun q => q.supplierName)).getD "")

/-- the queryset QuoteOptionItem.objects.filter(id__in=ids,
quote_option__order=order) of approve_mixed_quote. -/
def selectedItemQuotes (db : DB) (oid : Nat) (ids : List Nat) :
    List QuoteOptionItemR :=
  db.quoteItems.filter (fun qi => ids.contains qi.id ∧
    db.quoteOptions.any (fun q => q.id = qi.quoteOptionId ∧ q.orderId = oid))

/-- total_amount: the sum of total_price over exactly the selected
QuoteOptionItem rows. -/
def sumTotalPrice (l : List QuoteOptionItemR) : Int :=
  l.foldl (fun s qi => s + qi.totalPrice) 0

/-- OrderViewSet.approve_mixed_quote: validate that every referenced
QuoteOptionItem exists and belongs to this order, sum the total_price of
exactly the selected item rows, mark each contributing QuoteOption
selected (clearing the others), denormalize the summed amount and the
joined supplier names onto the order, overwrite estimated_cost, upsert
the manager_quote ledger row, move to quote_approved_by_manager and
notify finance and the requester. -/
def approve_mixed_quote (db : DB) (oid uid : Nat) (ids : List Nat) :
    Except Err DB :=
  match getOrder db oid with
  | none => .error .notFound
  | some o =>
    if o.status ≠ "procurement_quote_submitted" then .error .precondition
    else if ids.length = 0 then .error .validation
    else
      let sel := selectedItemQuotes db oid ids
      if ¬ sel.length = ids.length then .error .notFound
      else
        let total := sumTotalPrice sel
        let selQids := firstDedup (sel.map (fun qi => qi.quoteOptionId))
        let suppliers := supplierNamesOf db selQids
        let qos1 := db.quoteOptions.map (fun x =>
          if x.orderId = oid then { x with isSelected := false } else x)
        let qos2 := qos1.map (fun x =>
          if selQids.contains x.id then { x with isSelected := true } else x)
        let db1 := { db with quoteOptions := qos2 }
        let db2 := setOrderRow db1 { o with
          quoteAmount := some total,
          quoteSupplier := some (String.intercalate ", " suppliers),
          quoteNotes := some ("Mixed quote: " ++ toString ids.length ++
            " items from " ++ toString suppliers.length ++ " supplier(s)"),
          estimatedCost := total,
          status := "quote_approved_by_manager" }
        let db3 := recordApproval db2 ⟨oid, "manager_quote", uid, "approved",
          "Approved mixed quote from " ++ toString suppliers.length ++
            " supplier(s): " ++ String.intercalate ", " suppliers, false, false⟩
        let db4 := addActivity db3 ⟨oid, "quote_approved", uid, some o.status, some "quote_approved_by_manager"⟩
        let db5 := notifyUsersWithRoles db4 ["finance_manager"] oid "approval_needed"
        .ok (addNotification db5 ⟨oid, o.requestedBy, "approved"⟩)

/-- OrderViewSet.complete_payment: precondition quote_approved_by_manager,
a falsy payment_amount (absent or zero) is rejected, then the payment
fields are stored, the finance ledger row upserted, the order moved to
payment_completed, and the requester and submitting procurement user
notified. -/
def complete_payment (db : DB) (oid uid : Nat) (amount : Option Int)
    (method ref pnotes : Option String) : Except Err DB :=
  match getOrder db oid with
  | none => .error .notFound
  | some o =>
    if o.status ≠ "quote_approved_by_manager" then .error .precondition
    else
      match amount with
      | none => .error .validation
      | some a =>
        if a = 0 then .error .validation
        else
          let db1 := setOrderRow db { o with
            paymentAmount := some a,
            paymentMethod := method, paymentReference := ref,
            paymentNotes := some (pnotes.getD ""),
            paymentCompletedBy := some uid, status := "payment_completed" }
          let db2 := recordApproval db1 ⟨oid, "finance", uid, "approved",
            pnotes.getD "", false, false⟩
          let db3 := addActivity db2 ⟨oid, "payment_completed", uid,
            some o.status, some "payment_completed"⟩
          let db4 := addNotification db3 ⟨oid, o.requestedBy, "completed"⟩
          .ok (match o.quoteSubmittedBy with
               | some p => addNotification db4 ⟨oid, p, "completed"⟩
               | none => db4)

/-- OrderViewSet.finance_approve, the legacy finance endpoint:
serializer validation, precondition approved_by_admin, then the
action-dependent batch with ledger stage finance. -/
def finance_approve (db : DB) (oid uid : Nat) (act notes : String) :
    Except Err DB :=
  match getOrder db oid with
  | none => .error .notFound
  | some o =>
    match validateApprovalAction act notes with
    | some e => .error e
    | none =>
      if o.status ≠ "approved_by_admin" then .error .precondition
      else if act = "approved" then
        let db1 := recordApproval db ⟨oid, "finance", uid, "approved", notes, false, false⟩
        let db2 := setOrderRow db1 { o with status := "approved_by_finance" }
        let db3 := addActivity db2 ⟨oid, "finance_approved", uid, some o.status, some "approved_by_finance"⟩
        .ok (addNotification db3 ⟨oid, o.requestedBy, "approved"⟩)
      else if act = "rejected" then
        let db1 := recordApproval db ⟨oid, "finance", uid, "rejected", notes, false, false⟩
        let db2 := setOrderRow db1 { o with
          status := "rejected",
          rejectionReason := some ("Finance rejection: " ++ notes) }
        let db3 := addActivity db2 ⟨oid, "finance_rejected", uid, some o.status, some "rejected"⟩
        .ok (addNotification db3 ⟨oid, o.requestedBy, "rejected"⟩)
      else
        let db1 := setOrderRow db { o with
          status := "revision_requested_by_finance",
          revisionReason := some notes, revisionRequestedBy := some uid }
        let db2 := recordApproval db1 ⟨oid, "finance", uid, "revision_requested", notes, true, false⟩
        let db3 := addActivity db2 ⟨oid, "revision_requested", uid, some o.status, some "revision_requested_by_finance"⟩
        .ok (addNotification db3 ⟨oid, o.requestedBy, "revision_requested"⟩)

/-- OrderViewSet.complete: precondition payment_completed (or the legacy
approved_by_finance), then stamp completed and notify the requester. -/
def complete (db : DB) (oid uid : Nat) : Except Err DB :=
  match getOrder db oid with
  | none => .error .notFound
  | some o =>
    if o.status ≠ "payment_completed" ∧ o.status ≠ "approved_by_finance" then
      .error .precondition
    else
      let db1 := setOrderRow db { o with status := "completed" }
      let db2 := addActivity db1 ⟨oid, "completed", uid, some o.status, some "completed"⟩
      .ok (addNotification db2 ⟨oid, o.requestedBy, "completed"⟩)

/-- the partial-update body of submit_revision (the writable scalar
fields of the serializer it goes through). -/
structure RevisionPayload where
  title : Option String
  description : Option String
  quantity : Option Nat
  unit : Option String
  urgency : Option String
  estimated_cost : Option Int
  supplier : Option String
  deriving DecidableEq

def applyRevision (o : OrderR) (p : RevisionPayload) : OrderR :=
  { o with
    title := p.title.getD o.title,
    description := p.description.getD o.description,
    quantity := p.quantity.getD o.quantity,
    unit := p.unit.getD o.unit,
    urgency := p.urgency.getD o.urgency,
    estimatedCost := p.estimated_cost.getD o.estimatedCost,
    supplier := match p.supplier with
                | some s => some s
                | none => o.supplier }

/-- OrderViewSet.submit_revision: only the original requester (or a
veterinary-role user for a medicine order) may call it, the order must
be in a revision_requested_* status; the submitted fields are applied,
the order reset to pending with the revision fields cleared, and the
admins notified. -/
def submit_revision (db : DB) (oid uid : Nat) (p : RevisionPayload) :
    Except Err DB :=
  match getOrder db oid with
  | none => .error .notFound
  | some o =>
    if ¬ (o.requestedBy = uid ∨
        ((roleOf db uid = some "head_veterinary" ∨
          roleOf db uid = some "veterinary") ∧ o.orderType = "medicine")) then
      .error .forbidden
    else if ¬ (o.status = "revision_requested_by_manager" ∨
        o.status = "revision_requested_by_procurement" ∨
        o.status = "revision_requested_by_finance") then
      .error .precondition
    else
      let db1 := setOrderRow db { applyRevision o p with
        status := "pending",
        revisionReason := none, revisionRequestedBy := none }
      let db2 := addActivity db1 ⟨oid, "revision_submitted", uid, some o.status, some "pending"⟩
      .ok (notifyUsersWithRoles db2 ["admin", "super_admin"] oid "approval_needed")

def sumQty (l : List OrderItemR) : Nat :=
  l.foldl (fun s i => s + i.quantity) 0

/-- sum(float(item.estimated_cost or 0) for item in group_items). -/
def sumCost (l : List OrderItemR) : Int :=
  l.foldl (fun s i => s + i.estimatedCost.getD 0) 0

/-- the per-group creation loop of split_and_approve: for each item
group create a new order (own generated order number, summed quantity
and cost, status approved_by_manager straight away) with copies of the
group's items, and log a created activity; returns the new database and
the created order ids in group order. -/
def splitCreateGroups (uid : Nat) (o : OrderR) (orderItems : List OrderItemR)
    (total year ts : Nat) :
    DB → List (List Nat) → Nat → Except Err (DB × List Nat)
  | db, [], _ => .ok (db, [])
  | db, g :: rest, idx =>
    let groupItems := orderItems.filter (fun i => g.contains i.id)
    let groupCost := sumCost groupItems
    match generate_order_number (db.orders.map (fun x => x.orderNumber))
        o.orderType year ts with
    | none => .error .integrity
    | some num =>
      let nid := db.nextId
      let title := match groupItems with
        | [i] => i.itemName
        | _ => "Split Order " ++ toString idx ++ "/" ++ toString total ++
               " - " ++ toString groupItems.length ++ " items"
      let newO := baseOrder nid num o.orderType title
        (o.description ++ " - split from order " ++ o.orderNumber ++
          " group " ++ toString idx)
        (sumQty groupItems) "items" o.urgency
        (if groupCost = 0 then (1 : Int) else groupCost)
        o.supplier o.requestedBy "approved_by_manager"
      let newItems := groupItems.enum.map (fun pr =>
        OrderItemR.mk (nid + 1 + pr.1) nid pr.2.itemName pr.2.isCustomItem
          pr.2.quantity pr.2.unit pr.2.estimatedCost)
      let db1 := { db with
        orders := db.orders ++ [newO],
        items := db.items ++ newItems,
        nextId := nid + 1 + groupItems.length }
      let db2 := addActivity db1 ⟨nid, "created", uid, some "pending", some "approved_by_manager"⟩
      match splitCreateGroups uid o orderItems total year ts db2 rest (idx + 1) with
      | .error e => .error e
      | .ok r => .ok (r.1, nid :: r.2)

/-- OrderViewSet.split_and_approve: manager/super_admin only, pending
orders only, the union of the provided item-id groups must equal the
order's item-id set (the source compares the two id sets); with a single
group the original order is simply approved and reported as the one
created order, otherwise one new auto-approved order is created per
group and the original is marked completed.  The free-text notes
parameter of the request only feeds the activity description. -/
def split_and_approve (db : DB) (oid uid : Nat) (groups : List (List Nat))
    (year ts : Nat) : Except Err (DB × List Nat) :=
  match getOrder db oid with
  | none => .error .notFound
  | some o =>
    if roleOf db uid ≠ some "manager" ∧ roleOf db uid ≠ some "super_admin" then
      .error .forbidden
    else if o.status ≠ "pending" then .error .precondition
    else if groups.length = 0 then .error .validation
    else
      let orderItems := db.items.filter (fun i => i.orderId = oid)
      if orderItems.length = 0 then .error .validation
      else
        let allIds := orderItems.map (fun i => i.id)
        let provided := groups.foldl (fun s g => s ++ g) []
        if ¬ (allIds.all (fun i => provided.contains i) ∧
              provided.all (fun i => allIds.contains i)) then
          .error .validation
        else if groups.length = 1 then
          let db1 := setOrderRow db { o with status := "approved_by_manager" }
          let db2 := addActivity db1 ⟨oid, "manager_approved", uid, some o.status, some "approved_by_manager"⟩
          .ok (db2, [oid])
        else
          match splitCreateGroups uid o orderItems groups.length year ts db groups 1 with
          | .error e => .error e
          | .ok r =>
            let db2 := setOrderRow r.1 { o with status := "completed" }
            let db3 := addActivity db2 ⟨oid, "status_changed", uid, some o.status, some "completed"⟩
            .ok (db3, r.2)

/-! ## The transition system -/

/-- one inbound request to the workflow engine. -/
inductive Op where
  | createOp (uid : Nat) (p : CreatePayload) (year ts : Nat)
  | approveOp (oid uid : Nat) (act notes : String)
  | managerApproveOp (oid uid : Nat) (act notes : String)
  | submitQuoteOp (oid uid : Nat) (raw : List RawQuote)
  | approveQuoteOp (oid uid : Nat) (act : String) (selId : Option Nat) (notes : String)
  | approveMixedQuoteOp (oid uid : Nat) (ids : List Nat)
  | completePaymentOp (oid uid : Nat) (amount : Option Int) (method ref pnotes : Option String)
  | financeApproveOp (oid uid : Nat) (act notes : String)
  | completeOp (oid uid : Nat)
  | submitRevisionOp (oid uid : Nat) (p : RevisionPayload)
  | splitAndApproveOp (oid uid : Nat) (groups : List (List Nat)) (year ts : Nat)
  deriving DecidableEq

/-- dispatch a request to its endpoint. -/
def runOp (db : DB) (op : Op) : Except Err DB :=
  match op with
  | .createOp uid p year ts => perform_create db uid p year ts
  | .approveOp oid uid act notes => approve db oid uid act notes
  | .managerApproveOp oid uid act notes => manager_approve db oid uid act notes
  | .submitQuoteOp oid uid raw => submit_quote db oid uid raw
  | .approveQuoteOp oid uid act selId notes => approve_quote db oid uid act selId notes
  | .approveMixedQuoteOp oid uid ids => approve_mixed_quote db oid uid ids
  | .completePaymentOp oid uid amount method ref pnotes =>
      complete_payment db oid uid amount method ref pnotes
  | .financeApproveOp oid uid act notes => finance_approve db oid uid act notes
  | .completeOp oid uid => complete db oid uid
  | .submitRevisionOp oid uid p => submit_revision db oid uid p
  | .splitAndApproveOp oid uid groups year ts =>
      (split_and_approve db oid uid groups year ts).map Prod.fst

/-- the externally observable effect of a request: an error response
leaves the database untouched (every endpoint either rejects before the
atomic block or rolls the whole block back). -/
def applyOp (db : DB) (op : Op) : DB :=
  match runOp db op with
  | .ok db2 => db2
  | .error _ => db

def applyOps (db : DB) (ops : List Op) : DB :=
  ops.foldl applyOp db

/-- a fresh deployment: the user directory, no order data. -/
def initDB (users : List UserR) : DB :=
  { users := users, orders := [], items := [], quoteOptions := [],
    quoteItems := [], approvals := [], activities := [],
    notifications := [], nextId := 1 }

/-- the databases an actual deployment can be in: everything produced
from a fresh deployment by a sequence of requests. -/
def Reachable (db : DB) : Prop :=
  ∃ users ops, applyOps (initDB users) ops = db

/-! ## Invariants -/

/-- the approval ledger holds at most one row per (order, stage). -/
def approvalsUnique (l : List ApprovalR) : Prop :=
  (l.map approvalKey).Nodup

/-- quote-option primary keys are unique and below the id counter (so a
freshly drawn id cannot collide). -/
def quoteIdsOkL (qs : List QuoteOptionR) (n : Nat) : Prop :=
  (qs.map (fun q => q.id)).Nodup ∧ ∀ q ∈ qs, q.id < n

def quoteIdsOk (db : DB) : Prop :=
  quoteIdsOkL db.quoteOptions db.nextId

/-- any order sitting in procurement_quote_submitted got there through
submit_quote: its submitter is recorded and none of its quote options is
selected yet. -/
def quotesUnselectedL (os : List OrderR) (qs : List QuoteOptionR) : Prop :=
  ∀ o ∈ os, o.status = "procurement_quote_submitted" →
    o.quoteSubmittedBy.isSome = true ∧
    ∀ q ∈ qs, q.orderId = o.id → q.isSelected = false

def quotesUnselectedInv (db : DB) : Prop :=
  quotesUnselectedL db.orders db.quoteOptions

/-- the state invariant every reachable database satisfies. -/
def Inv (db : DB) : Prop :=
  approvalsUnique db.approvals ∧ quoteIdsOk db ∧ quotesUnselectedInv db

/-! ## Concrete scenarios (used by the witnesses and counterexamples) -/

/-- a small user directory: a manager, a procurement user, a requester
and a finance manager. -/
def demoUsers : List UserR :=
  [⟨1, "manager"⟩, ⟨2, "procurement"⟩, ⟨3, "worker"⟩, ⟨4, "finance_manager"⟩]

/-- a one-item medicine order request. -/
def demoCreate : CreatePayload :=
  { order_type := "medicine", description := "syringes for the crush pen",
    urgency := none, estimated_cost := 100, supplier := none,
    items := [⟨"Syringes", none, 10, none, some 100⟩] }

/-- a two-item medicine order request. -/
def twoItemCreate : CreatePayload :=
  { order_type := "medicine", description := "two consumables",
    urgency := none, estimated_cost := 100, supplier := none,
    items := [⟨"Gloves", none, 1, none, some 40⟩,
              ⟨"Masks", none, 2, none, some 60⟩] }

/-- a single submitted quote, recommended, with one item-level price. -/
def demoRawQuote : RawQuote :=
  { supplier_name := some "Acme", supplier_address := none,
    buying_company := none, quoted_amount := some 80, delivery_time := none,
    notes := none, is_recommended := some true,
    item_quotes := some [⟨some 2, some 8, some 80, none, none, none⟩] }

/-- create, manager-approve and quote order 1: afterwards it sits in
procurement_quote_submitted. -/
def demoOps : List Op :=
  [.createOp 3 demoCreate 2026 123,
   .managerApproveOp 1 1 "approved" "",
   .submitQuoteOp 1 2 [demoRawQuote]]

def demoDB : DB := applyOps (initDB demoUsers) demoOps

/-- a freshly created two-item order (order 1, items 2 and 3). -/
def db2items : DB := applyOps (initDB demoUsers) [.createOp 3 twoItemCreate 2026 123]

/-- the two-item order once manager-approved (awaiting quotes). -/
def dbAppr : DB :=
  applyOps (initDB demoUsers)
    [.createOp 3 twoItemCreate 2026 123, .managerApproveOp 1 1 "approved" ""]

/-- an item quote whose client marks it not available while still
carrying real prices. -/
def rawNA : RawQuote :=
  { supplier_name := some "Acme", supplier_address := none,
    buying_company := none, quoted_amount := some 80, delivery_time := none,
    notes := none, is_recommended := some true,
    item_quotes := some [⟨some 2, some 5, some 50, none, none, some true⟩] }

/-- an item quote that omits unit_price. -/
def rawNoPrice : RawQuote :=
  { supplier_name := some "Acme", supplier_address := none,
    buying_company := none, quoted_amount := some 80, delivery_time := none,
    notes := none, is_recommended := some true,
    item_quotes := some [⟨some 2, none, some 50, none, none, none⟩] }

/-- two raw quotes both flagged recommended (invalid submission). -/
def rawTwoRec : List RawQuote :=
  [{ supplier_name := some "Acme", supplier_address := none,
     buying_company := none, quoted_amount := some 80, delivery_time := none,
     notes := none, is_recommended := some true, item_quotes := none },
   { supplier_name := some "Bolt", supplier_address := none,
     buying_company := none, quoted_amount := some 95, delivery_time := none,
     notes := none, is_recommended := some true, item_quotes := none }]

/-- the two-item order with two submitted quote options: option 4 from
Acme (items 5: total 2, 6: total 7) and option 7 from Bolt (items 8:
total 3, 9: total 5, 10: total 9); Acme is recommended. -/
def cdb4 : DB :=
  applyOps (initDB demoUsers)
    [.createOp 3 twoItemCreate 2026 123,
     .managerApproveOp 1 1 "approved" "",
     .submitQuoteOp 1 2
       [{ supplier_name := some "Acme", supplier_address := none,
          buying_company := none, quoted_amount := some 80,
          delivery_time := none, notes := none, is_recommended := some true,
          item_quotes := some [⟨some 2, some 2, some 2, none, none, none⟩,
                               ⟨some 3, some 7, some 7, none, none, none⟩] },
        { supplier_name := some "Bolt", supplier_address := none,
          buying_company := none, quoted_amount := some 95,
          delivery_time := none, notes := none, is_recommended := some false,
          item_quotes := some [⟨some 2, some 3, some 3, none, none, none⟩,
                               ⟨some 3, some 5, some 5, none, none, none⟩] }]]

/-- cdb4 after the mixed approval selecting item quotes 5 (total 2) and
9 (total 5). -/
def wdb4 : DB := applyOp cdb4 (Op.approveMixedQuoteOp 1 1 [5, 9])

/-- cdb4 after approving the full Acme quote (option 4, amount 80). -/
def wdb4b : DB := applyOp cdb4 (Op.approveQuoteOp 1 1 "approved" (some 4) "ok")

/-- demoDB after the quote rejection with empty notes (the write the
claimed notes validation should have prevented). -/
def wdb7 : DB := applyOp demoDB (Op.approveQuoteOp 1 1 "rejected" none "")

/-- dbAppr after a successful quote submission (for the claim-3 witness). -/
def wdb3 : DB := applyOp dbAppr (Op.submitQuoteOp 1 2 [demoRawQuote])

/-- db2items after split_and_approve with the single full group. -/
def wdb9 : DB := applyOp db2items (Op.splitAndApproveOp 1 1 [[2, 3]] 2026 124)

/-- db2items after split_and_approve with item 3 duplicated across the
two groups (the call the spec says must be rejected). -/
def wdb2 : DB := applyOp db2items (Op.splitAndApproveOp 1 1 [[2, 3], [3]] 2026 124)

/-- dbAppr after submitting the not-available-flagged quote. -/
def wdb10 : DB := applyOp dbAppr (Op.submitQuoteOp 1 2 [rawNA])

/-! ## Ledger helper lemmas -/

theorem approvalsUnique_upsert (l : List ApprovalR) (a : ApprovalR)
    (h : approvalsUnique l) : approvalsUnique (upsertApproval l a) := by
  unfold approvalsUnique upsertApproval
  by_cases hex : l.any (fun x => decide (x.orderId = a.orderId ∧ x.stage = a.stage)) = true
  · rw [if_pos hex]
    have hmap : (l.map (fun x =>
        if x.orderId = a.orderId ∧ x.stage = a.stage then a else x)).map approvalKey
          = l.map approvalKey := by
      rw [List.map_map]
      apply List.map_congr_left
      intro x _
      by_cases hc : x.orderId = a.orderId ∧ x.stage = a.stage
      · simp only [Function.comp_apply, if_pos hc, approvalKey]
        rw [hc.1, hc.2]
      · simp only [Function.comp_apply, if_neg hc]
    rw [hmap]; exact h
  · rw [if_neg hex]
    simp only [List.map_cons, List.nodup_cons]
    refine ⟨?_, h⟩
    intro hmem
    rcases List.mem_map.1 hmem with ⟨x, hx, hkey⟩
    apply hex
    rw [List.any_eq_true]
    refine ⟨x, hx, ?_⟩
    have h1 : x.orderId = a.orderId := congrArg Prod.fst hkey
    have h2 : x.stage = a.stage := congrArg Prod.snd hkey
    simp [h1, h2]

/-! ## Order-lookup helper lemmas -/

theorem findOrder_mem {l : List OrderR} {oid : Nat} {o : OrderR}
    (h : findOrder l oid = some o) : o ∈ l :=
  List.mem_of_find?_eq_some h

theorem findOrder_id {l : List OrderR} {oid : Nat} {o : OrderR}
    (h : findOrder l oid = some o) : o.id = oid := by
  have h2 := List.find?_some h
  simpa using h2

/-- after order.save() the lookup of the saved id returns the saved row
(provided the id was present). -/
theorem findOrder_set (l : List OrderR) (i : Nat) (o' : OrderR) (o : OrderR)
    (h : findOrder l i = some o) (hid : o'.id = i) :
    findOrder (l.map (fun x => if x.id = i then o' else x)) i = some o' := by
  induction l with
  | nil => simp [findOrder] at h
  | cons x xs ih =>
    by_cases hx : x.id = i
    · simp only [findOrder, List.map_cons, if_pos hx]
      rw [List.find?_cons_of_pos _ (by simp [hid])]
    · simp only [findOrder, List.map_cons, if_neg hx] at *
      rw [List.find?_cons_of_neg _ (by simpa using hx)] at h
      rw [List.find?_cons_of_neg _ (by simpa using hx)]
      exact ih h

/-- members of a saved order table are the saved row or untouched old
rows. -/
theorem mem_set_orders {l : List OrderR} {i : Nat} {o' x : OrderR}
    (h : x ∈ l.map (fun y => if y.id = i then o' else y)) :
    x = o' ∨ (x ∈ l ∧ x.id ≠ i) := by
  rcases List.mem_map.1 h with ⟨y, hy, hxy⟩
  by_cases hc : y.id = i
  · rw [if_pos hc] at hxy; exact Or.inl hxy.symm
  · rw [if_neg hc] at hxy; exact Or.inr ⟨hxy ▸ hy, hxy ▸ hc⟩

/-! ## Projection lemmas for the write helpers -/

@[simp] theorem setOrderRow_users (db : DB) (x : OrderR) :
    (setOrderRow db x).users = db.users := rfl

@[simp] theorem setOrderRow_items (db : DB) (x : OrderR) :
    (setOrderRow db x).items = db.items := rfl

@[simp] theorem setOrderRow_quoteOptions (db : DB) (x : OrderR) :
    (setOrderRow db x).quoteOptions = db.quoteOptions := rfl

@[simp] theorem setOrderRow_quoteItems (db : DB) (x : OrderR) :
    (setOrderRow db x).quoteItems = db.quoteItems := rfl

@[simp] theorem setOrderRow_approvals (db : DB) (x : OrderR) :
    (setOrderRow db x).approvals = db.approvals := rfl

@[simp] theorem setOrderRow_activities (db : DB) (x : OrderR) :
    (setOrderRow db x).activities = db.activities := rfl

@[simp] theorem setOrderRow_notifications (db : DB) (x : OrderR) :
    (setOrderRow db x).notifications = db.notifications := rfl

@[simp] theorem setOrderRow_nextId (db : DB) (x : OrderR) :
    (setOrderRow db x).nextId = db.nextId := rfl

@[simp] theorem addActivity_users (db : DB) (x : ActivityR) :
    (addActivity db x).users = db.users := rfl

@[simp] theorem addActivity_orders (db : DB) (x : ActivityR) :
    (addActivity db x).orders = db.orders := rfl

@[simp] theorem addActivity_items (db : DB) (x : ActivityR) :
    (addActivity db x).items = db.items := rfl

@[simp] theorem addActivity_quoteOptions (db : DB) (x : ActivityR) :
    (addActivity db x).quoteOptions = db.quoteOptions := rfl

@[simp] theorem addActivity_quoteItems (db : DB) (x : ActivityR) :
    (addActivity db x).quoteItems = db.quoteItems := rfl

@[simp] theorem addActivity_approvals (db : DB) (x : ActivityR) :
    (addActivity db x).approvals = db.approvals := rfl

@[simp] theorem addActivity_notifications (db : DB) (x : ActivityR) :
    (addActivity db x).notifications = db.notifications := rfl

@[simp] theorem addActivity_nextId (db : DB) (x : ActivityR) :
    (addActivity db x).nextId = db.nextId := rfl

@[simp] theorem addNotification_users (db : DB) (x : NotificationR) :
    (addNotification db x).users = db.users := rfl

@[simp] theorem addNotification_orders (db : DB) (x : NotificationR) :
    (addNotification db x).orders = db.orders := rfl

@[simp] theorem addNotification_items (db : DB) (x : NotificationR) :
    (addNotification db x).items = db.items := rfl

@[simp] theorem addNotification_quoteOptions (db : DB) (x : NotificationR) :
    (addNotification db x).quoteOptions = db.quoteOptions := rfl

@[simp] theorem addNotification_quoteItems (db : DB) (x : NotificationR) :
    (addNotification db x).quoteItems = db.quoteItems := rfl

@[simp] theorem addNotification_approvals (db : DB) (x : NotificationR) :
    (addNotification db x).approvals = db.approvals := rfl

@[simp] theorem addNotification_activities (db : DB) (x : NotificationR) :
    (addNotification db x).activities = db.activities := rfl

@[simp] theorem addNotification_nextId (db : DB) (x : NotificationR) :
    (addNotification db x).nextId = db.nextId := rfl

@[simp] theorem notifyUsersWithRoles_users (db : DB) (roles : List String) (oid : Nat) (nt : String) :
    (notifyUsersWithRoles db roles oid nt).users = db.users := rfl

@[simp] theorem notifyUsersWithRoles_orders (db : DB) (roles : List String) (oid : Nat) (nt : String) :
    (notifyUsersWithRoles db roles oid nt).orders = db.orders := rfl

@[simp] theorem notifyUsersWithRoles_items (db : DB) (roles : List String) (oid : Nat) (nt : String) :
    (notifyUsersWithRoles db roles oid nt).items = db.items := rfl

@[simp] theorem notifyUsersWithRoles_quoteOptions (db : DB) (roles : List String) (oid : Nat) (nt : String) :
    (notifyUsersWithRoles db roles oid nt).quoteOptions = db.quoteOptions := rfl

@[simp] theorem notifyUsersWithRoles_quoteItems (db : DB) (roles : List String) (oid : Nat) (nt : String) :
    (notifyUsersWithRoles db roles oid nt).quoteItems = db.quoteItems := rfl

@[simp] theorem notifyUsersWithRoles_approvals (db : DB) (roles : List String) (oid : Nat) (nt : String) :
    (notifyUsersWithRoles db roles oid nt).approvals = db.approvals := rfl

@[simp] theorem notifyUsersWithRoles_activities (db : DB) (roles : List String) (oid : Nat) (nt : String) :
    (notifyUsersWithRoles db roles oid nt).activities = db.activities := rfl

@[simp] theorem notifyUsersWithRoles_nextId (db : DB) (roles : List String) (oid : Nat) (nt : String) :
    (notifyUsersWithRoles db roles oid nt).nextId = db.nextId := rfl

@[simp] theorem recordApproval_users (db : DB) (x : ApprovalR) :
    (recordApproval db x).users = db.users := rfl

@[simp] theorem recordApproval_orders (db : DB) (x : ApprovalR) :
    (recordApproval db x).orders = db.orders := rfl

@[simp] theorem recordApproval_items (db : DB) (x : ApprovalR) :
    (recordApproval db x).items = db.items := rfl

@[simp] theorem recordApproval_quoteOptions (db : DB) (x : ApprovalR) :
    (recordApproval db x).quoteOptions = db.quoteOptions := rfl

@[simp] theorem recordApproval_quoteItems (db : DB) (x : ApprovalR) :
    (recordApproval db x).quoteItems = db.quoteItems := rfl

@[simp] theorem recordApproval_activities (db : DB) (x : ApprovalR) :
    (recordApproval db x).activities = db.activities := rfl

@[simp] theorem recordApproval_notifications (db : DB) (x : ApprovalR) :
    (recordApproval db x).notifications = db.notifications := rfl

@[simp] theorem recordApproval_nextId (db : DB) (x : ApprovalR) :
    (recordApproval db x).nextId = db.nextId := rfl

@[simp] theorem setOrderRow_orders (db : DB) (x : OrderR) :
    (setOrderRow db x).orders = db.orders.map (fun y => if y.id = x.id then x else y) := rfl

@[simp] theorem addActivity_activities (db : DB) (x : ActivityR) :
    (addActivity db x).activities = x :: db.activities := rfl

@[simp] theorem addNotification_notifications (db : DB) (x : NotificationR) :
    (addNotification db x).notifications = x :: db.notifications := rfl

@[simp] theorem recordApproval_approvals (db : DB) (x : ApprovalR) :
    (recordApproval db x).approvals = upsertApproval db.approvals x := rfl

/-! ## Invariant-component helper lemmas -/

theorem quotesUnselectedL_set (os : List OrderR) (qs : List QuoteOptionR)
    (i : Nat) (o' : OrderR) (h : quotesUnselectedL os qs)
    (hst : o'.status ≠ "procurement_quote_submitted") :
    quotesUnselectedL (os.map (fun x => if x.id = i then o' else x)) qs := by
  intro o ho hpqs
  rcases mem_set_orders ho with h1 | h2
  · exact absurd (h1 ▸ hpqs) hst
  · exact h o h2.1 hpqs

theorem quotesUnselectedL_append (os : List OrderR) (qs : List QuoteOptionR)
    (o' : OrderR) (h : quotesUnselectedL os qs)
    (hst : o'.status ≠ "procurement_quote_submitted") :
    quotesUnselectedL (os ++ [o']) qs := by
  intro o ho hpqs
  rcases List.mem_append.1 ho with h1 | h2
  · exact h o h1 hpqs
  · rcases List.mem_singleton.1 h2 with rfl
    exact absurd hpqs hst

theorem quoteIdsOkL_map (qs : List QuoteOptionR) (n : Nat)
    (f : QuoteOptionR → QuoteOptionR) (hf : ∀ x, (f x).id = x.id)
    (h : quoteIdsOkL qs n) : quoteIdsOkL (qs.map f) n := by
  constructor
  · rw [List.map_map]
    rw [show ((fun q : QuoteOptionR => q.id) ∘ f) = (fun q : QuoteOptionR => q.id)
      from funext hf]
    exact h.1
  · intro q hq
    rcases List.mem_map.1 hq with ⟨x, hx, rfl⟩
    rw [hf x]
    exact h.2 x hx

theorem quoteIdsOkL_mono (qs : List QuoteOptionR) (n m : Nat) (hnm : n ≤ m)
    (h : quoteIdsOkL qs n) : quoteIdsOkL qs m :=
  ⟨h.1, fun q hq => lt_of_lt_of_le (h.2 q hq) hnm⟩

/-! ## buildQuotes lemmas -/

theorem buildQuotes_nextId_le (oid uid : Nat) (qs : List QuoteData) :
    ∀ s : Nat, s ≤ (buildQuotes oid uid s qs).2.2 := by
  induction qs with
  | nil => intro s; simp [buildQuotes]
  | cons qd rest ih =>
    intro s
    simp only [buildQuotes]
    have h1 : s ≤ s + 1 + qd.item_quotes.length := by omega
    exact le_trans h1 (ih _)

theorem buildQuotes_mem (oid uid : Nat) (qs : List QuoteData) :
    ∀ (s : Nat) (q : QuoteOptionR), q ∈ (buildQuotes oid uid s qs).1 →
      q.orderId = oid ∧ q.isSelected = false ∧ s ≤ q.id ∧
      q.id < (buildQuotes oid uid s qs).2.2 := by
  induction qs with
  | nil => intro s q hq; simp [buildQuotes] at hq
  | cons qd rest ih =>
    intro s q hq
    simp only [buildQuotes, List.mem_cons] at hq
    rcases hq with rfl | hq
    · refine ⟨rfl, rfl, le_refl _, ?_⟩
      have h1 : s < s + 1 + qd.item_quotes.length := by omega
      simpa only [buildQuotes] using
        lt_of_lt_of_le h1 (buildQuotes_nextId_le oid uid rest _)
    · have h2 := ih _ _ hq
      refine ⟨h2.1, h2.2.1, ?_, ?_⟩
      · have h3 := h2.2.2.1
        omega
      · simpa only [buildQuotes] using h2.2.2.2

theorem buildQuotes_ids_nodup (oid uid : Nat) (qs : List QuoteData) :
    ∀ s : Nat, ((buildQuotes oid uid s qs).1.map (fun q => q.id)).Nodup := by
  induction qs with
  | nil => intro s; simp [buildQuotes]
  | cons qd rest ih =>
    intro s
    simp only [buildQuotes, List.map_cons, List.nodup_cons]
    refine ⟨?_, ih _⟩
    intro hmem
    rcases List.mem_map.1 hmem with ⟨x, hx, hid⟩
    have h2 := (buildQuotes_mem oid uid rest _ x hx).2.2.1
    have h3 : (mkQuoteOption s oid uid qd).id = s := rfl
    omega

theorem buildQuotes_rec_filter (oid uid : Nat) (qs : List QuoteData) :
    ∀ s : Nat,
      ((buildQuotes oid uid s qs).1.filter (fun q => q.isRecommended)).length
        = (qs.filter (fun q => q.is_recommended)).length := by
  induction qs with
  | nil => intro s; simp [buildQuotes]
  | cons qd rest ih =>
    intro s
    simp only [buildQuotes, List.filter_cons]
    have hrec : (mkQuoteOption s oid uid qd).isRecommended = qd.is_recommended := rfl
    rw [hrec]
    by_cases hb : qd.is_recommended = true
    · simp only [hb, if_true, List.length_cons, ih _]
    · have hb2 : qd.is_recommended = false := by
        cases h : qd.is_recommended
        · rfl
        · exact absurd h hb
      simp only [hb2, Bool.false_eq_true, if_neg, ih _]
      rw [if_neg (by simp), if_neg (by simp)]
      exact ih _

/-! ## splitCreateGroups structure lemma -/

theorem splitCreateGroups_spec (uid : Nat) (o : OrderR)
    (orderItems : List OrderItemR) (total year ts : Nat)
    (gs : List (List Nat)) :
    ∀ (db : DB) (idx : Nat) (r : DB × List Nat),
      splitCreateGroups uid o orderItems total year ts db gs idx = .ok r →
      r.1.users = db.users ∧
      r.1.approvals = db.approvals ∧
      r.1.quoteOptions = db.quoteOptions ∧
      r.1.quoteItems = db.quoteItems ∧
      db.nextId ≤ r.1.nextId ∧
      (∀ x ∈ r.1.orders, x ∈ db.orders ∨ x.status = "approved_by_manager") := by
  induction gs with
  | nil =>
    intro db idx r h
    simp only [splitCreateGroups] at h
    cases h
    exact ⟨rfl, rfl, rfl, rfl, le_refl _, fun x hx => Or.inl hx⟩
  | cons g rest ih =>
    intro db idx r h
    simp only [splitCreateGroups] at h
    split at h
    · cases h
    · split at h
      · cases h
      · rename_i r2 heq
        cases h
        have hr := ih _ _ _ heq
        simp only [addActivity_users, addActivity_approvals, addActivity_quoteOptions,
          addActivity_quoteItems, addActivity_nextId, addActivity_orders] at hr
        refine ⟨?_, ?_, ?_, ?_, ?_, ?_⟩
        · show r2.1.users = db.users
          exact hr.1
        · show r2.1.approvals = db.approvals
          exact hr.2.1
        · show r2.1.quoteOptions = db.quoteOptions
          exact hr.2.2.1
        · show r2.1.quoteItems = db.quoteItems
          exact hr.2.2.2.1
        · show db.nextId ≤ r2.1.nextId
          have h5 := hr.2.2.2.2.1
          omega
        · intro x hx
          have hx2 : x ∈ r2.1.orders := hx
          rcases hr.2.2.2.2.2 x hx2 with h6 | h6
          · rcases List.mem_append.1 h6 with h7 | h7
            · exact Or.inl h7
            · rcases List.mem_singleton.1 h7 with rfl
              exact Or.inr rfl
          · exact Or.inr h6

/-! ## Invariant preservation, endpoint by endpoint -/

theorem manager_approve_inv {db db2 : DB} {oid uid : Nat} {act notes : String}
    (h : manager_approve db oid uid act notes = .ok db2) (hI : Inv db) :
    Inv db2 := by
  obtain ⟨hA, hQ, hS⟩ := hI
  unfold manager_approve at h
  split at h
  · cases h
  · split at h
    · cases h
    · split at h
      · cases h
      · split at h
        · cases h
          refine ⟨?_, ?_, ?_⟩
          · simp only [addNotification_approvals, notifyUsersWithRoles_approvals,
              addActivity_approvals, setOrderRow_approvals, recordApproval_approvals]
            exact approvalsUnique_upsert _ _ hA
          · unfold quoteIdsOk at hQ ⊢
            simpa using hQ
          · unfold quotesUnselectedInv at hS ⊢
            simp only [addNotification_orders, notifyUsersWithRoles_orders,
              addActivity_orders, setOrderRow_orders, addNotification_quoteOptions,
              notifyUsersWithRoles_quoteOptions, addActivity_quoteOptions,
              setOrderRow_quoteOptions, recordApproval_orders, recordApproval_quoteOptions]
            apply quotesUnselectedL_set _ _ _ _ hS
            show ("approved_by_manager" : String) ≠ "procurement_quote_submitted"
            decide
        · split at h
          · cases h
            refine ⟨?_, ?_, ?_⟩
            · simp only [addNotification_approvals, addActivity_approvals,
                setOrderRow_approvals, recordApproval_approvals]
              exact approvalsUnique_upsert _ _ hA
            · unfold quoteIdsOk at hQ ⊢
              simpa using hQ
            · unfold quotesUnselectedInv at hS ⊢
              simp only [addNotification_orders, addActivity_orders, setOrderRow_orders,
                addNotification_quoteOptions, addActivity_quoteOptions,
                setOrderRow_quoteOptions, recordApproval_orders, recordApproval_quoteOptions]
              apply quotesUnselectedL_set _ _ _ _ hS
              show ("rejected" : String) ≠ "procurement_quote_submitted"
              decide
          · cases h
            refine ⟨?_, ?_, ?_⟩
            · simp only [addNotification_approvals, addActivity_approvals,
                recordApproval_approvals, setOrderRow_approvals]
              exact approvalsUnique_upsert _ _ hA
            · unfold quoteIdsOk at hQ ⊢
              simpa using hQ
            · unfold quotesUnselectedInv at hS ⊢
              simp only [addNotification_orders, addActivity_orders, recordApproval_orders,
                setOrderRow_orders, addNotification_quoteOptions, addActivity_quoteOptions,
                recordApproval_quoteOptions, setOrderRow_quoteOptions]
              apply quotesUnselectedL_set _ _ _ _ hS
              show ("revision_requested_by_manager" : String) ≠ "procurement_quote_submitted"
              decide

theorem approve_inv {db db2 : DB} {oid uid : Nat} {act notes : String}
    (h : approve db oid uid act notes = .ok db2) (hI : Inv db) :
    Inv db2 := by
  obtain ⟨hA, hQ, hS⟩ := hI
  unfold approve at h
  split at h
  · cases h
  · split at h
    · cases h
    · split at h
      · cases h
      · split at h
        · cases h
          refine ⟨?_, ?_, ?_⟩
          · simp only [addNotification_approvals, notifyUsersWithRoles_approvals,
              addActivity_approvals, setOrderRow_approvals, recordApproval_approvals]
            exact approvalsUnique_upsert _ _ hA
          · unfold quoteIdsOk at hQ ⊢
            simpa using hQ
          · unfold quotesUnselectedInv at hS ⊢
            simp only [addNotification_orders, notifyUsersWithRoles_orders,
              addActivity_orders, setOrderRow_orders, addNotification_quoteOptions,
              notifyUsersWithRoles_quoteOptions, addActivity_quoteOptions,
              setOrderRow_quoteOptions, recordApproval_orders, recordApproval_quoteOptions]
            apply quotesUnselectedL_set _ _ _ _ hS
            show ("approved_by_admin" : String) ≠ "procurement_quote_submitted"
            decide
        · split at h
          · cases h
            refine ⟨?_, ?_, ?_⟩
            · simp only [addNotification_approvals, addActivity_approvals,
                setOrderRow_approvals, recordApproval_approvals]
              exact approvalsUnique_upsert _ _ hA
            · unfold quoteIdsOk at hQ ⊢
              simpa using hQ
            · unfold quotesUnselectedInv at hS ⊢
              simp only [addNotification_orders, addActivity_orders, setOrderRow_orders,
                addNotification_quoteOptions, addActivity_quoteOptions,
                setOrderRow_quoteOptions, recordApproval_orders, recordApproval_quoteOptions]
              apply quotesUnselectedL_set _ _ _ _ hS
              show ("rejected" : String) ≠ "procurement_quote_submitted"
              decide
          · cases h
            refine ⟨?_, ?_, ?_⟩
            · simp only [addNotification_approvals, addActivity_approvals,
                recordApproval_approvals, setOrderRow_approvals]
              exact approvalsUnique_upsert _ _ hA
            · unfold quoteIdsOk at hQ ⊢
              simpa using hQ
            · unfold quotesUnselectedInv at hS ⊢
              simp only [addNotification_orders, addActivity_orders, recordApproval_orders,
                setOrderRow_orders, addNotification_quoteOptions, addActivity_quoteOptions,
                recordApproval_quoteOptions, setOrderRow_quoteOptions]
              apply quotesUnselectedL_set _ _ _ _ hS
              show ("revision_requested_by_admin" : String) ≠ "procurement_quote_submitted"
              decide

theorem finance_approve_inv {db db2 : DB} {oid uid : Nat} {act notes : String}
    (h : finance_approve db oid uid act notes = .ok db2) (hI : Inv db) :
    Inv db2 := by
  obtain ⟨hA, hQ, hS⟩ := hI
  unfold finance_approve at h
  split at h
  · cases h
  · split at h
    · cases h
    · split at h
      · cases h
      · split at h
        · cases h
          refine ⟨?_, ?_, ?_⟩
          · simp only [addNotification_approvals, notifyUsersWithRoles_approvals,
              addActivity_approvals, setOrderRow_approvals, recordApproval_approvals]
            exact approvalsUnique_upsert _ _ hA
          · unfold quoteIdsOk at hQ ⊢
            simpa using hQ
          · unfold quotesUnselectedInv at hS ⊢
            simp only [addNotification_orders, notifyUsersWithRoles_orders,
              addActivity_orders, setOrderRow_orders, addNotification_quoteOptions,
              notifyUsersWithRoles_quoteOptions, addActivity_quoteOptions,
              setOrderRow_quoteOptions, recordApproval_orders, recordApproval_quoteOptions]
            apply quotesUnselectedL_set _ _ _ _ hS
            show ("approved_by_finance" : String) ≠ "procurement_quote_submitted"
            decide
        · split at h
          · cases h
            refine ⟨?_, ?_, ?_⟩
            · simp only [addNotification_approvals, addActivity_approvals,
                setOrderRow_approvals, recordApproval_approvals]
              exact approvalsUnique_upsert _ _ hA
            · unfold quoteIdsOk at hQ ⊢
              simpa using hQ
            · unfold quotesUnselectedInv at hS ⊢
              simp only [addNotification_orders, addActivity_orders, setOrderRow_orders,
                addNotification_quoteOptions, addActivity_quoteOptions,
                setOrderRow_quoteOptions, recordApproval_orders, recordApproval_quoteOptions]
              apply quotesUnselectedL_set _ _ _ _ hS
              show ("rejected" : String) ≠ "procurement_quote_submitted"
              decide
          · cases h
            refine ⟨?_, ?_, ?_⟩
            · simp only [addNotification_approvals, addActivity_approvals,
                recordApproval_approvals, setOrderRow_approvals]
              exact approvalsUnique_upsert _ _ hA
            · unfold quoteIdsOk at hQ ⊢
              simpa using hQ
            · unfold quotesUnselectedInv at hS ⊢
              simp only [addNotification_orders, addActivity_orders, recordApproval_orders,
                setOrderRow_orders, addNotification_quoteOptions, addActivity_quoteOptions,
                recordApproval_quoteOptions, setOrderRow_quoteOptions]
              apply quotesUnselectedL_set _ _ _ _ hS
              show ("revision_requested_by_finance" : String) ≠ "procurement_quote_submitted"
              decide

theorem complete_inv {db db2 : DB} {oid uid : Nat}
    (h : complete db oid uid = .ok db2) (hI : Inv db) : Inv db2 := by
  obtain ⟨hA, hQ, hS⟩ := hI
  unfold complete at h
  split at h
  · cases h
  · split at h
    · cases h
    · cases h
      refine ⟨?_, ?_, ?_⟩
      · simpa using hA
      · unfold quoteIdsOk at hQ ⊢
        simpa using hQ
      · unfold quotesUnselectedInv at hS ⊢
        simp only [addNotification_orders, addActivity_orders, setOrderRow_orders,
          addNotification_quoteOptions, addActivity_quoteOptions, setOrderRow_quoteOptions]
        apply quotesUnselectedL_set _ _ _ _ hS
        show ("completed" : String) ≠ "procurement_quote_submitted"
        decide

theorem submit_revision_inv {db db2 : DB} {oid uid : Nat} {p : RevisionPayload}
    (h : submit_revision db oid uid p = .ok db2) (hI : Inv db) : Inv db2 := by
  obtain ⟨hA, hQ, hS⟩ := hI
  unfold submit_revision at h
  split at h
  · cases h
  · split at h
    · cases h
    · split at h
      · cases h
      · cases h
        refine ⟨?_, ?_, ?_⟩
        · simpa using hA
        · unfold quoteIdsOk at hQ ⊢
          simpa using hQ
        · unfold quotesUnselectedInv at hS ⊢
          simp only [notifyUsersWithRoles_orders, addActivity_orders, setOrderRow_orders,
            notifyUsersWithRoles_quoteOptions, addActivity_quoteOptions,
            setOrderRow_quoteOptions]
          apply quotesUnselectedL_set _ _ _ _ hS
          show ("pending" : String) ≠ "procurement_quote_submitted"
          decide

theorem complete_payment_inv {db db2 : DB} {oid uid : Nat} {amount : Option Int}
    {method ref pnotes : Option String}
    (h : complete_payment db oid uid amount method ref pnotes = .ok db2)
    (hI : Inv db) : Inv db2 := by
  obtain ⟨hA, hQ, hS⟩ := hI
  unfold complete_payment at h
  split at h
  · cases h
  · split at h
    · cases h
    · split at h
      · cases h
      · split at h
        · cases h
        · split at h
          all_goals
            cases h
            refine ⟨?_, ?_, ?_⟩
            · simp only [addNotification_approvals, addActivity_approvals,
                setOrderRow_approvals, recordApproval_approvals]
              exact approvalsUnique_upsert _ _ hA
            · unfold quoteIdsOk at hQ ⊢
              simpa using hQ
            · unfold quotesUnselectedInv at hS ⊢
              simp only [addNotification_orders, addActivity_orders, setOrderRow_orders,
                recordApproval_orders, addNotification_quoteOptions,
                addActivity_quoteOptions, setOrderRow_quoteOptions,
                recordApproval_quoteOptions]
              apply quotesUnselectedL_set _ _ _ _ hS
              show ("payment_completed" : String) ≠ "procurement_quote_submitted"
              decide

theorem perform_create_inv {db db2 : DB} {uid : Nat} {p : CreatePayload}
    {year ts : Nat}
    (h : perform_create db uid p year ts = .ok db2) (hI : Inv db) : Inv db2 := by
  obtain ⟨hA, hQ, hS⟩ := hI
  unfold perform_create at h
  split at h
  · cases h
  · split at h
    · cases h
    · cases h
      refine ⟨?_, ?_, ?_⟩
      · simpa using hA
      · unfold quoteIdsOk at hQ ⊢
        simp only [notifyUsersWithRoles_quoteOptions, addActivity_quoteOptions,
          notifyUsersWithRoles_nextId, addActivity_nextId]
        refine quoteIdsOkL_mono _ _ _ ?_ hQ
        omega
      · unfold quotesUnselectedInv at hS ⊢
        simp only [notifyUsersWithRoles_orders, addActivity_orders,
          notifyUsersWithRoles_quoteOptions, addActivity_quoteOptions]
        apply quotesUnselectedL_append _ _ _ hS
        show ("pending" : String) ≠ "procurement_quote_submitted"
        decide

theorem mem_firstDedup {l : List Nat} {x : Nat} (h : x ∈ firstDedup l) :
    x ∈ l := by
  induction l with
  | nil => simp [firstDedup] at h
  | cons a t ih =>
    simp only [firstDedup, List.mem_cons] at h
    rcases h with rfl | h
    · exact List.mem_cons_self _ _
    · exact List.mem_cons_of_mem _ (ih (List.mem_of_mem_filter h))

/-- selecting or clearing a quote row never changes its primary key. -/
theorem ite_id (P : Prop) [Decidable P] (a b : QuoteOptionR)
    (ha : a.id = b.id) : (if P then a else b).id = b.id := by
  by_cases h : P
  · rw [if_pos h]; exact ha
  · rw [if_neg h]

/-- reselecting one quote of the order keeps every other
procurement_quote_submitted order's options unselected. -/
theorem quotesUnselectedL_selectOne (os : List OrderR) (qs : List QuoteOptionR)
    (i oid qid : Nat) (o' : OrderR) (q : QuoteOptionR)
    (hS : quotesUnselectedL os qs)
    (hst : o'.status ≠ "procurement_quote_submitted")
    (hi : i = oid)
    (hnd : (qs.map (fun x => x.id)).Nodup)
    (hq : q ∈ qs) (hqid : q.id = qid) (hqoid : q.orderId = oid) :
    quotesUnselectedL (os.map (fun x => if x.id = i then o' else x))
      ((qs.map (fun x => if x.orderId = oid then { x with isSelected := false } else x)).map
        (fun x => if x.id = qid then { x with isSelected := true } else x)) := by
  intro o2 ho2 hpqs
  rcases mem_set_orders ho2 with h1 | h2
  · exact absurd (h1 ▸ hpqs) hst
  obtain ⟨ho2mem, hne⟩ := h2
  obtain ⟨hsub, hopts⟩ := hS o2 ho2mem hpqs
  refine ⟨hsub, ?_⟩
  intro q2 hq2 hq2oid
  have hne2 : o2.id ≠ oid := by rw [← hi]; exact hne
  rcases List.mem_map.1 hq2 with ⟨q1, hq1, hgq⟩
  rcases List.mem_map.1 hq1 with ⟨q0, hq0, hfq⟩
  by_cases hc0 : q0.orderId = oid
  · rw [if_pos hc0] at hfq
    by_cases hc1 : q1.id = qid
    · rw [if_pos hc1] at hgq
      exfalso
      apply hne2
      have hq2o : q2.orderId = oid := by
        rw [← hgq]
        show q1.orderId = oid
        rw [← hfq]
        exact hc0
      exact hq2oid.symm.trans hq2o
    · rw [if_neg hc1] at hgq
      rw [← hgq, ← hfq]
  · rw [if_neg hc0] at hfq
    by_cases hc1 : q1.id = qid
    · exfalso
      apply hc0
      have hq0id : q0.id = qid := by rw [hfq]; exact hc1
      have he : q0 = q :=
        List.inj_on_of_nodup_map hnd hq0 hq (by rw [hq0id, hqid])
      rw [he]
      exact hqoid
    · rw [if_neg hc1] at hgq
      have hq2eq : q2 = q0 := by rw [← hgq, ← hfq]
      rw [hq2eq]
      refine hopts q0 hq0 ?_
      rw [← hq2eq]
      exact hq2oid

/-- reselecting the mixed-quote contributors keeps every other
procurement_quote_submitted order's options unselected. -/
theorem quotesUnselectedL_selectMixed (os : List OrderR)
    (qs : List QuoteOptionR) (i oid : Nat) (o' : OrderR) (sel : List Nat)
    (hS : quotesUnselectedL os qs)
    (hst : o'.status ≠ "procurement_quote_submitted")
    (hi : i = oid)
    (hnd : (qs.map (fun x => x.id)).Nodup)
    (hsel : ∀ j ∈ sel, ∃ q ∈ qs, q.id = j ∧ q.orderId = oid) :
    quotesUnselectedL (os.map (fun x => if x.id = i then o' else x))
      ((qs.map (fun x => if x.orderId = oid then { x with isSelected := false } else x)).map
        (fun x => if sel.contains x.id then { x with isSelected := true } else x)) := by
  intro o2 ho2 hpqs
  rcases mem_set_orders ho2 with h1 | h2
  · exact absurd (h1 ▸ hpqs) hst
  obtain ⟨ho2mem, hne⟩ := h2
  obtain ⟨hsub, hopts⟩ := hS o2 ho2mem hpqs
  refine ⟨hsub, ?_⟩
  intro q2 hq2 hq2oid
  have hne2 : o2.id ≠ oid := by rw [← hi]; exact hne
  rcases List.mem_map.1 hq2 with ⟨q1, hq1, hgq⟩
  rcases List.mem_map.1 hq1 with ⟨q0, hq0, hfq⟩
  by_cases hc0 : q0.orderId = oid
  · rw [if_pos hc0] at hfq
    by_cases hc1 : sel.contains q1.id = true
    · rw [if_pos hc1] at hgq
      exfalso
      apply hne2
      have hq2o : q2.orderId = oid := by
        rw [← hgq]
        show q1.orderId = oid
        rw [← hfq]
        exact hc0
      exact hq2oid.symm.trans hq2o
    · rw [if_neg hc1] at hgq
      rw [← hgq, ← hfq]
  · rw [if_neg hc0] at hfq
    by_cases hc1 : sel.contains q1.id = true
    · exfalso
      apply hc0
      have hq0mem : q0.id ∈ sel := by
        rw [hfq]
        exact List.mem_of_elem_eq_true hc1
      rcases hsel _ hq0mem with ⟨q, hq, hqid, hqoid⟩
      have he : q0 = q := List.inj_on_of_nodup_map hnd hq0 hq (by rw [hqid])
      rw [he]
      exact hqoid
    · rw [if_neg hc1] at hgq
      have hq2eq : q2 = q0 := by rw [← hgq, ← hfq]
      rw [hq2eq]
      refine hopts q0 hq0 ?_
      rw [← hq2eq]
      exact hq2oid

theorem approve_quote_inv {db db2 : DB} {oid uid : Nat} {act : String}
    {selId : Option Nat} {notes : String}
    (h : approve_quote db oid uid act selId notes = .ok db2) (hI : Inv db) :
    Inv db2 := by
  obtain ⟨hA, hQ, hS⟩ := hI
  unfold quoteIdsOk at hQ
  unfold approve_quote at h
  split at h
  · cases h
  · rename_i o ho
    split at h
    · cases h
    · split at h
      · cases h
      · split at h
        · -- act = "approved"
          split at h
          · cases h
          · split at h
            · cases h
            · rename_i selq qid qscrut q hfind
              have hqmem : q ∈ db.quoteOptions := List.mem_of_find?_eq_some hfind
              have hqprop : q.id = qid ∧ q.orderId = oid := by
                have h2 := List.find?_some hfind
                simpa using h2
              have hoid : o.id = oid := findOrder_id ho
              have hf1 : ∀ x : QuoteOptionR,
                  ((fun y : QuoteOptionR =>
                    if y.orderId = oid then { y with isSelected := false } else y) x).id
                    = x.id := fun x => ite_id _ _ _ rfl
              have hf2 : ∀ x : QuoteOptionR,
                  ((fun y : QuoteOptionR =>
                    if y.id = qid then { y with isSelected := true } else y) x).id
                    = x.id := fun x => ite_id _ _ _ rfl
              split at h
              all_goals
                cases h
                refine ⟨?_, ?_, ?_⟩
                · simp only [addNotification_approvals, notifyUsersWithRoles_approvals,
                    addActivity_approvals, setOrderRow_approvals, recordApproval_approvals]
                  exact approvalsUnique_upsert _ _ hA
                · unfold quoteIdsOk
                  simp only [addNotification_quoteOptions, notifyUsersWithRoles_quoteOptions,
                    addActivity_quoteOptions, setOrderRow_quoteOptions,
                    recordApproval_quoteOptions, addNotification_nextId,
                    notifyUsersWithRoles_nextId, addActivity_nextId, setOrderRow_nextId,
                    recordApproval_nextId]
                  exact quoteIdsOkL_map _ _ _ hf2 (quoteIdsOkL_map _ _ _ hf1 hQ)
                · unfold quotesUnselectedInv
                  simp only [addNotification_orders, notifyUsersWithRoles_orders,
                    addActivity_orders, setOrderRow_orders, recordApproval_orders,
                    addNotification_quoteOptions, notifyUsersWithRoles_quoteOptions,
                    addActivity_quoteOptions, setOrderRow_quoteOptions,
                    recordApproval_quoteOptions]
                  apply quotesUnselectedL_selectOne _ _ _ _ _ _ q hS ?_ hoid hQ.1
                    hqmem hqprop.1 hqprop.2
                  show ("quote_approved_by_manager" : String) ≠ "procurement_quote_submitted"
                  decide
        · split at h
          · -- act = "rejected"
            split at h
            all_goals
              cases h
              refine ⟨?_, ?_, ?_⟩
              · simpa using hA
              · unfold quoteIdsOk
                simpa using hQ
              · unfold quotesUnselectedInv at hS ⊢
                simp only [addNotification_orders, addActivity_orders, setOrderRow_orders,
                  addNotification_quoteOptions, addActivity_quoteOptions,
                  setOrderRow_quoteOptions]
                apply quotesUnselectedL_set _ _ _ _ hS
                show ("approved_by_manager" : String) ≠ "procurement_quote_submitted"
                decide
          · cases h
            exact ⟨hA, hQ, hS⟩

theorem approve_mixed_quote_inv {db db2 : DB} {oid uid : Nat} {ids : List Nat}
    (h : approve_mixed_quote db oid uid ids = .ok db2) (hI : Inv db) :
    Inv db2 := by
  obtain ⟨hA, hQ, hS⟩ := hI
  unfold quoteIdsOk at hQ
  unfold approve_mixed_quote at h
  split at h
  · cases h
  · rename_i o ho
    split at h
    · cases h
    · split at h
      · cases h
      · dsimp only at h
        split at h
        · cases h
        · have hoid : o.id = oid := findOrder_id ho
          have hf1 : ∀ x : QuoteOptionR,
              ((fun y : QuoteOptionR =>
                if y.orderId = oid then { y with isSelected := false } else y) x).id
                = x.id := fun x => ite_id _ _ _ rfl
          have hsel : ∀ j ∈ firstDedup
              ((selectedItemQuotes db oid ids).map (fun qi => qi.quoteOptionId)),
              ∃ q ∈ db.quoteOptions, q.id = j ∧ q.orderId = oid := by
            intro j hj
            have hj2 := mem_firstDedup hj
            rcases List.mem_map.1 hj2 with ⟨qi, hqi, hqij⟩
            have hqi2 := List.mem_filter.1 hqi
            have hany : db.quoteOptions.any
                (fun q => decide (q.id = qi.quoteOptionId ∧ q.orderId = oid)) = true := by
              have h3 := hqi2.2
              simp only [Bool.decide_and, Bool.and_eq_true] at h3
              simpa using h3.2
            rcases List.any_eq_true.1 hany with ⟨q, hq, hqp⟩
            have hqp2 : q.id = qi.quoteOptionId ∧ q.orderId = oid := by simpa using hqp
            exact ⟨q, hq, hqij ▸ hqp2.1, hqp2.2⟩
          have hf2 : ∀ x : QuoteOptionR,
              ((fun y : QuoteOptionR =>
                if (firstDedup ((selectedItemQuotes db oid ids).map
                    (fun qi => qi.quoteOptionId))).contains y.id
                then { y with isSelected := true } else y) x).id = x.id :=
            fun x => ite_id _ _ _ rfl
          cases h
          refine ⟨?_, ?_, ?_⟩
          · simp only [addNotification_approvals, notifyUsersWithRoles_approvals,
              addActivity_approvals, setOrderRow_approvals, recordApproval_approvals]
            exact approvalsUnique_upsert _ _ hA
          · unfold quoteIdsOk
            simp only [addNotification_quoteOptions, notifyUsersWithRoles_quoteOptions,
              addActivity_quoteOptions, setOrderRow_quoteOptions,
              recordApproval_quoteOptions, addNotification_nextId,
              notifyUsersWithRoles_nextId, addActivity_nextId, setOrderRow_nextId,
              recordApproval_nextId]
            exact quoteIdsOkL_map _ _ _ hf2 (quoteIdsOkL_map _ _ _ hf1 hQ)
          · unfold quotesUnselectedInv
            simp only [addNotification_orders, notifyUsersWithRoles_orders,
              addActivity_orders, setOrderRow_orders, recordApproval_orders,
              addNotification_quoteOptions, notifyUsersWithRoles_quoteOptions,
              addActivity_quoteOptions, setOrderRow_quoteOptions,
              recordApproval_quoteOptions]
            apply quotesUnselectedL_selectMixed _ _ _ _ _ _ hS ?_ hoid hQ.1 hsel
            show ("quote_approved_by_manager" : String) ≠ "procurement_quote_submitted"
            decide

theorem submit_quote_inv {db db2 : DB} {oid uid : Nat} {raw : List RawQuote}
    (h : submit_quote db oid uid raw = .ok db2) (hI : Inv db) : Inv db2 := by
  obtain ⟨hA, hQ, hS⟩ := hI
  unfold quoteIdsOk at hQ
  unfold submit_quote at h
  split at h
  · cases h
  · rename_i o ho
    split at h
    · cases h
    · split at h
      · cases h
      · rename_i qs hval
        split at h
        · cases h
        · cases h
          have hoid : o.id = oid := findOrder_id ho
          refine ⟨?_, ?_, ?_⟩
          · simp only [notifyUsersWithRoles_approvals, addActivity_approvals,
              recordApproval_approvals, setOrderRow_approvals]
            exact approvalsUnique_upsert _ _ hA
          · unfold quoteIdsOk
            simp only [notifyUsersWithRoles_quoteOptions, addActivity_quoteOptions,
              recordApproval_quoteOptions, setOrderRow_quoteOptions,
              notifyUsersWithRoles_nextId, addActivity_nextId, recordApproval_nextId,
              setOrderRow_nextId]
            constructor
            · rw [List.map_append]
              apply List.Nodup.append
              · exact ((List.filter_sublist _).map _).nodup hQ.1
              · exact buildQuotes_ids_nodup oid uid qs _
              · intro a ha hb
                rcases List.mem_map.1 ha with ⟨qa, hqa, hida⟩
                rcases List.mem_map.1 hb with ⟨qb, hqb, hidb⟩
                have h1 : qa.id < db.nextId :=
                  hQ.2 qa (List.mem_of_mem_filter hqa)
                have h2 := (buildQuotes_mem oid uid qs _ qb hqb).2.2.1
                omega
            · intro q hq
              rcases List.mem_append.1 hq with hk | hb
              · have h1 : q.id < db.nextId :=
                  hQ.2 q (List.mem_of_mem_filter hk)
                have h2 := buildQuotes_nextId_le oid uid qs db.nextId
                omega
              · exact (buildQuotes_mem oid uid qs _ q hb).2.2.2
          · unfold quotesUnselectedInv
            simp only [notifyUsersWithRoles_orders, addActivity_orders,
              recordApproval_orders, setOrderRow_orders,
              notifyUsersWithRoles_quoteOptions, addActivity_quoteOptions,
              recordApproval_quoteOptions, setOrderRow_quoteOptions]
            intro o2 ho2 hpqs
            rcases mem_set_orders ho2 with h1 | h2
            · subst h1
              refine ⟨rfl, ?_⟩
              intro q2 hq2 hq2oid
              rcases List.mem_append.1 hq2 with hk | hb
              · exfalso
                have h3 := (List.mem_filter.1 hk).2
                have h4 : ¬ q2.orderId = oid := by simpa using h3
                apply h4
                rw [hq2oid]
                show o.id = oid
                exact hoid
              · exact (buildQuotes_mem oid uid qs _ q2 hb).2.1
            · obtain ⟨hmem, hne⟩ := h2
              obtain ⟨hsub, hopts⟩ := hS o2 hmem hpqs
              refine ⟨hsub, ?_⟩
              intro q2 hq2 hq2oid
              rcases List.mem_append.1 hq2 with hk | hb
              · exact hopts q2 (List.mem_of_mem_filter hk) hq2oid
              · exfalso
                apply hne
                have hqo := (buildQuotes_mem oid uid qs _ q2 hb).1
                have h5 : o2.id = oid := hq2oid.symm.trans hqo
                show o2.id = o.id
                rw [h5, hoid]

theorem split_and_approve_inv {db : DB} {r : DB × List Nat} {oid uid : Nat}
    {groups : List (List Nat)} {year ts : Nat}
    (h : split_and_approve db oid uid groups year ts = .ok r) (hI : Inv db) :
    Inv r.1 := by
  obtain ⟨hA, hQ, hS⟩ := hI
  unfold quoteIdsOk at hQ
  unfold split_and_approve at h
  split at h
  · cases h
  · rename_i o ho
    split at h
    · cases h
    · split at h
      · cases h
      · split at h
        · cases h
        · dsimp only at h
          split at h
          · cases h
          · split at h
            · cases h
            · split at h
              · cases h
                refine ⟨?_, ?_, ?_⟩
                · simpa using hA
                · unfold quoteIdsOk
                  simpa using hQ
                · unfold quotesUnselectedInv
                  simp only [addActivity_orders, setOrderRow_orders,
                    addActivity_quoteOptions, setOrderRow_quoteOptions]
                  apply quotesUnselectedL_set _ _ _ _ hS
                  show ("approved_by_manager" : String) ≠ "procurement_quote_submitted"
                  decide
              · split at h
                · cases h
                · rename_i r2 heq
                  cases h
                  have hspec := splitCreateGroups_spec _ _ _ _ _ _ _ _ _ _ heq
                  refine ⟨?_, ?_, ?_⟩
                  · show approvalsUnique
                      (addActivity (setOrderRow r2.1 _) _).approvals
                    simp only [addActivity_approvals, setOrderRow_approvals]
                    rw [hspec.2.1]
                    exact hA
                  · unfold quoteIdsOk
                    show quoteIdsOkL
                      (addActivity (setOrderRow r2.1 _) _).quoteOptions
                      (addActivity (setOrderRow r2.1 _) _).nextId
                    simp only [addActivity_quoteOptions, setOrderRow_quoteOptions,
                      addActivity_nextId, setOrderRow_nextId]
                    rw [hspec.2.2.1]
                    exact quoteIdsOkL_mono _ _ _ hspec.2.2.2.2.1 hQ
                  · unfold quotesUnselectedInv
                    show quotesUnselectedL
                      (addActivity (setOrderRow r2.1 _) _).orders
                      (addActivity (setOrderRow r2.1 _) _).quoteOptions
                    simp only [addActivity_orders, setOrderRow_orders,
                      addActivity_quoteOptions, setOrderRow_quoteOptions]
                    rw [hspec.2.2.1]
                    intro o2 ho2 hpqs
                    rcases mem_set_orders ho2 with h1 | h2
                    · exfalso
                      rw [h1] at hpqs
                      have h3 : ("completed" : String) = "procurement_quote_submitted" := hpqs
                      exact absurd h3 (by decide)
                    · obtain ⟨hmem2, _⟩ := h2
                      rcases hspec.2.2.2.2.2 o2 hmem2 with hold | happr
                      · exact hS o2 hold hpqs
                      · exfalso
                        rw [happr] at hpqs
                        exact absurd hpqs (by decide)

/-! ## The invariant holds in every reachable state -/

theorem applyOp_inv (db : DB) (op : Op) (h : Inv db) : Inv (applyOp db op) := by
  cases op with
  | createOp uid p year ts =>
    simp only [applyOp, runOp]
    cases hr : perform_create db uid p year ts with
    | ok db2 => exact perform_create_inv hr h
    | error e => exact h
  | approveOp oid uid act notes =>
    simp only [applyOp, runOp]
    cases hr : approve db oid uid act notes with
    | ok db2 => exact approve_inv hr h
    | error e => exact h
  | managerApproveOp oid uid act notes =>
    simp only [applyOp, runOp]
    cases hr : manager_approve db oid uid act notes with
    | ok db2 => exact manager_approve_inv hr h
    | error e => exact h
  | submitQuoteOp oid uid raw =>
    simp only [applyOp, runOp]
    cases hr : submit_quote db oid uid raw with
    | ok db2 => exact submit_quote_inv hr h
    | error e => exact h
  | approveQuoteOp oid uid act selId notes =>
    simp only [applyOp, runOp]
    cases hr : approve_quote db oid uid act selId notes with
    | ok db2 => exact approve_quote_inv hr h
    | error e => exact h
  | approveMixedQuoteOp oid uid ids =>
    simp only [applyOp, runOp]
    cases hr : approve_mixed_quote db oid uid ids with
    | ok db2 => exact approve_mixed_quote_inv hr h
    | error e => exact h
  | completePaymentOp oid uid amount method ref pnotes =>
    simp only [applyOp, runOp]
    cases hr : complete_payment db oid uid amount method ref pnotes with
    | ok db2 => exact complete_payment_inv hr h
    | error e => exact h
  | financeApproveOp oid uid act notes =>
    simp only [applyOp, runOp]
    cases hr : finance_approve db oid uid act notes with
    | ok db2 => exact finance_approve_inv hr h
    | error e => exact h
  | completeOp oid uid =>
    simp only [applyOp, runOp]
    cases hr : complete db oid uid with
    | ok db2 => exact complete_inv hr h
    | error e => exact h
  | submitRevisionOp oid uid p =>
    simp only [applyOp, runOp]
    cases hr : submit_revision db oid uid p with
    | ok db2 => exact submit_revision_inv hr h
    | error e => exact h
  | splitAndApproveOp oid uid groups year ts =>
    simp only [applyOp, runOp]
    cases hr : split_and_approve db oid uid groups year ts with
    | ok r => exact split_and_approve_inv hr h
    | error e => exact h

theorem applyOps_inv (db : DB) (ops : List Op) (h : Inv db) :
    Inv (applyOps db ops) := by
  induction ops generalizing db with
  | nil => exact h
  | cons op rest ih => exact ih _ (applyOp_inv db op h)

theorem initDB_inv (users : List UserR) : Inv (initDB users) := by
  refine ⟨?_, ⟨?_, ?_⟩, ?_⟩
  · simp [initDB, approvalsUnique]
  · simp [initDB]
  · intro q hq
    simp [initDB] at hq
  · intro o ho hpqs
    simp [initDB] at ho

theorem reachable_inv {db : DB} (h : Reachable db) : Inv db := by
  rcases h with ⟨users, ops, rfl⟩
  exact applyOps_inv _ _ (initDB_inv users)

/-! ## Serializer-layer lemmas -/

theorem validateItemQuote_error {r : RawItemQuote} {e : Err}
    (h : validateItemQuote r = .error e) : e = Err.validation := by
  unfold validateItemQuote at h
  split at h
  · split at h
    · cases h; rfl
    · split at h
      · cases h; rfl
      · cases h
  · cases h; rfl

theorem validateItemQuoteList_error {l : List RawItemQuote} {e : Err}
    (h : validateItemQuoteList l = .error e) : e = Err.validation := by
  induction l with
  | nil => simp [validateItemQuoteList] at h
  | cons r rest ih =>
    unfold validateItemQuoteList at h
    split at h
    · rename_i e2 herr
      cases h
      exact validateItemQuote_error herr
    · split at h
      · rename_i e2 herr
        cases h
        exact ih herr
      · cases h

theorem validateQuote_error {r : RawQuote} {e : Err}
    (h : validateQuote r = .error e) : e = Err.validation := by
  unfold validateQuote at h
  split at h
  · split at h
    · cases h; rfl
    · split at h
      · cases h; rfl
      · split at h
        · rename_i e2 herr
          cases h
          exact validateItemQuoteList_error herr
        · cases h
  · cases h; rfl

theorem validateQuoteList_error {raw : List RawQuote} {e : Err}
    (h : validateQuoteList raw = .error e) : e = Err.validation := by
  induction raw with
  | nil => simp [validateQuoteList] at h
  | cons r rest ih =>
    unfold validateQuoteList at h
    split at h
    · rename_i e2 herr
      cases h
      exact validateQuote_error herr
    · split at h
      · rename_i e2 herr
        cases h
        exact ih herr
      · cases h

theorem validateQuote_ok_rec {r : RawQuote} {q : QuoteData}
    (h : validateQuote r = .ok q) :
    q.is_recommended = r.is_recommended.getD false := by
  unfold validateQuote at h
  split at h
  · split at h
    · cases h
    · split at h
      · cases h
      · split at h
        · cases h
        · cases h; rfl
  · cases h

theorem validateQuoteList_rec {raw : List RawQuote} {qs : List QuoteData}
    (h : validateQuoteList raw = .ok qs) :
    (qs.filter (fun q => q.is_recommended)).length = recommendedCount raw := by
  induction raw generalizing qs with
  | nil =>
    simp only [validateQuoteList] at h
    cases h
    rfl
  | cons r rest ih =>
    unfold validateQuoteList at h
    split at h
    · cases h
    · rename_i q hq
      split at h
      · cases h
      · rename_i qs2 hrest
        cases h
        have hqrec := validateQuote_ok_rec hq
        unfold recommendedCount
        simp only [List.filter_cons, hqrec]
        cases hr : r.is_recommended.getD false with
        | true =>
          simp only [if_true, List.length_cons]
          rw [ih hrest]
          rfl
        | false =>
          simp only [Bool.false_eq_true, if_neg]
          rw [if_neg (by simp), if_neg (by simp)]
          exact ih hrest

theorem validateSubmitQuotes_ok_rec {raw : List RawQuote}
    {qs : List QuoteData} (h : validateSubmitQuotes raw = .ok qs) :
    (qs.filter (fun q => q.is_recommended)).length = 1 := by
  unfold validateSubmitQuotes at h
  split at h
  · cases h
  · split at h
    · cases h
    · split at h
      · cases h
      · split at h
        · cases h
        · cases h
          rename_i hne0 hgt1
          omega

theorem validateSubmitQuotes_count {raw : List RawQuote}
    (hcount : recommendedCount raw ≠ 1) :
    validateSubmitQuotes raw = .error .validation := by
  unfold validateSubmitQuotes
  cases hm : validateQuoteList raw with
  | error e => rw [validateQuoteList_error hm]
  | ok qs =>
    have hrec := validateQuoteList_rec hm
    dsimp only
    by_cases h0 : qs.length = 0
    · rw [if_pos h0]
    · rw [if_neg h0]
      by_cases h1 : (qs.filter (fun q => q.is_recommended)).length = 0
      · rw [if_pos h1]
      · rw [if_neg h1]
        have hgt : (qs.filter (fun q => q.is_recommended)).length > 1 := by omega
        rw [if_pos hgt]

/-! ## The claims -/

/-- claim C1: for every user directory and every sequence of transition
operations (create, approve, manager_approve, submit_quote,
approve_quote, approve_mixed_quote, complete_payment, finance_approve,
and the remaining endpoints) applied to a fresh deployment, the
approval ledger holds at most one OrderApproval row per (order, stage)
pair at any time — every ledger write goes through the
update_or_create upsert, which replaces the existing row for the stage
instead of adding a second one. -/
theorem claim1_approval_ledger_unique (users : List UserR) (ops : List Op) :
    approvalsUnique (applyOps (initDB users) ops).approvals :=
  (applyOps_inv _ _ (initDB_inv users)).1

/-- claim C5: calling manager_approve on an order that is not in status
pending (in particular one already approved_by_manager) fails with the
precondition error and leaves the whole database unchanged — no status
write, no second manager_initial ledger row, no second notification
batch. -/
theorem claim5_manager_approve_not_pending (db : DB) (oid uid : Nat)
    (act notes : String) (o : OrderR) (ho : getOrder db oid = some o)
    (hst : o.status ≠ "pending")
    (hval : validateApprovalAction act notes = none) :
    manager_approve db oid uid act notes = .error .precondition ∧
    applyOp db (.managerApproveOp oid uid act notes) = db := by
  have hmain : manager_approve db oid uid act notes = .error .precondition := by
    unfold manager_approve
    simp only [ho, hval]
    rw [if_pos hst]
  exact ⟨hmain, by simp [applyOp, runOp, hmain]⟩

/-- witness for claim C5: the already manager-approved demo order. -/
theorem claim5_witness :
    manager_approve dbAppr 1 1 "approved" "" = .error .precondition ∧
    applyOp dbAppr (.managerApproveOp 1 1 "approved" "") = dbAppr :=
  claim5_manager_approve_not_pending dbAppr 1 1 "approved" "" _ rfl
    (by decide) rfl

/-- claim C7 counterexample: approve_quote performs no notes
validation — rejecting all quotes with empty notes succeeds and writes
the status change back to approved_by_manager, so the claimed
"rejected as a validation failure before any write occurs" is false
for this endpoint. -/
theorem claim7_counterexample :
    (approve_quote demoDB 1 1 "rejected" none "").isOk = true ∧
    (getOrder wdb7 1).map OrderR.status = some "approved_by_manager" ∧
    wdb7 ≠ demoDB := by
  refine ⟨rfl, rfl, by decide⟩

/-- claim C7 (amended): the endpoints that validate through
OrderApprovalActionSerializer — manager_approve and the legacy approve
and finance_approve — reject an invocation whose action is rejected or
revision_requested with an empty or missing notes field as a
validation failure before any write; approve_quote performs no such
notes check (see the counterexample). -/
theorem claim7_notes_required (db : DB) (oid uid : Nat) (act notes : String)
    (o : OrderR) (ho : getOrder db oid = some o)
    (hact : act = "rejected" ∨ act = "revision_requested") (hn : notes = "") :
    manager_approve db oid uid act notes = .error .validation ∧
    applyOp db (.managerApproveOp oid uid act notes) = db ∧
    approve db oid uid act notes = .error .validation ∧
    applyOp db (.approveOp oid uid act notes) = db ∧
    finance_approve db oid uid act notes = .error .validation ∧
    applyOp db (.financeApproveOp oid uid act notes) = db := by
  subst hn
  have hval : validateApprovalAction act "" = some .validation := by
    rcases hact with rfl | rfl <;> rfl
  have h1 : manager_approve db oid uid act "" = .error .validation := by
    unfold manager_approve
    simp only [ho, hval]
  have h2 : approve db oid uid act "" = .error .validation := by
    unfold approve
    simp only [ho, hval]
  have h3 : finance_approve db oid uid act "" = .error .validation := by
    unfold finance_approve
    simp only [ho, hval]
  refine ⟨h1, by simp [applyOp, runOp, h1], h2, by simp [applyOp, runOp, h2],
    h3, by simp [applyOp, runOp, h3]⟩

/-- witness for the amended claim C7 at a concrete order. -/
theorem claim7_witness :
    manager_approve dbAppr 1 1 "rejected" "" = .error .validation ∧
    applyOp dbAppr (.managerApproveOp 1 1 "rejected" "") = dbAppr ∧
    approve dbAppr 1 1 "rejected" "" = .error .validation ∧
    applyOp dbAppr (.approveOp 1 1 "rejected" "") = dbAppr ∧
    finance_approve dbAppr 1 1 "rejected" "" = .error .validation ∧
    applyOp dbAppr (.financeApproveOp 1 1 "rejected" "") = dbAppr :=
  claim7_notes_required dbAppr 1 1 "rejected" "" _ rfl (Or.inl rfl) rfl

/-- claim C6: in any reachable state, approve_quote with action
rejected on an order in procurement_quote_submitted succeeds, sets the
status back to approved_by_manager, leaves no QuoteOption of the order
selected, notifies the procurement user who submitted the quotes, and
writes no OrderApproval ledger row — the rejection is recorded only as
a quote_rejected row in the activity log. -/
theorem claim6_quote_reject_no_ledger (db : DB) (hdb : Reachable db)
    (oid uid : Nat) (notes : String) (o : OrderR)
    (ho : getOrder db oid = some o)
    (hst : o.status = "procurement_quote_submitted") :
    ∃ p db2, o.quoteSubmittedBy = some p ∧
      approve_quote db oid uid "rejected" none notes = .ok db2 ∧
      getOrder db2 oid = some { o with status := "approved_by_manager" } ∧
      (∀ q ∈ db2.quoteOptions, q.orderId = oid → q.isSelected = false) ∧
      db2.approvals = db.approvals ∧
      db2.activities = ⟨oid, "quote_rejected", uid, some o.status,
        some "approved_by_manager"⟩ :: db.activities ∧
      db2.notifications = ⟨oid, p, "revision_requested"⟩ :: db.notifications := by
  have hI := reachable_inv hdb
  have homem : o ∈ db.orders := findOrder_mem ho
  have hoid : o.id = oid := findOrder_id ho
  obtain ⟨hsub, hopts⟩ := hI.2.2 o homem hst
  cases hp : o.quoteSubmittedBy with
  | none => rw [hp] at hsub; cases hsub
  | some p =>
    refine ⟨p,
      addNotification (addActivity (setOrderRow db
        { o with status := "approved_by_manager" })
        ⟨oid, "quote_rejected", uid, some o.status, some "approved_by_manager"⟩)
        ⟨oid, p, "revision_requested"⟩,
      rfl, ?_, ?_, ?_, rfl, rfl, rfl⟩
    · unfold approve_quote
      simp only [ho, hp]
      rw [if_neg (fun hc => hc hst)]
      rfl
    · unfold getOrder
      simp only [addNotification_orders, addActivity_orders, setOrderRow_orders]
      simp only [hoid, hp]
      refine findOrder_set db.orders oid _ o ho ?_
      rfl
    · intro q hq hqoid
      simp only [addNotification_quoteOptions, addActivity_quoteOptions,
        setOrderRow_quoteOptions] at hq
      exact hopts q hq (by rw [hqoid, hoid])

/-- witness for claim C6 on the demo database, reachable by creating,
manager-approving and quoting order 1. -/
theorem claim6_witness :
    ∃ o, getOrder demoDB 1 = some o ∧
      (∃ p db2, o.quoteSubmittedBy = some p ∧
        approve_quote demoDB 1 1 "rejected" none "resubmit" = .ok db2 ∧
        getOrder db2 1 = some { o with status := "approved_by_manager" } ∧
        (∀ q ∈ db2.quoteOptions, q.orderId = 1 → q.isSelected = false) ∧
        db2.approvals = demoDB.approvals ∧
        db2.activities = ⟨1, "quote_rejected", 1, some o.status,
          some "approved_by_manager"⟩ :: demoDB.activities ∧
        db2.notifications = ⟨1, p, "revision_requested"⟩ :: demoDB.notifications) := by
  refine ⟨_, rfl, ?_⟩
  exact claim6_quote_reject_no_ledger demoDB ⟨demoUsers, demoOps, rfl⟩ 1 1
    "resubmit" _ rfl rfl

/-- claim C3: after a successful submit_quote the stored QuoteOption
set of the order contains exactly one row with is_recommended=true;
a submission whose quote list has zero or more than one recommended
quotes is rejected as a validation error and the database — in
particular the order's previously stored QuoteOption set — is left
untouched. -/
theorem claim3_submit_quote_one_recommended (db : DB) (oid uid : Nat)
    (raw : List RawQuote) (o : OrderR) (ho : getOrder db oid = some o)
    (hst : o.status = "approved_by_manager" ∨
      o.status = "procurement_quote_submitted") :
    (∀ db2, submit_quote db oid uid raw = .ok db2 →
      (db2.quoteOptions.filter
        (fun q => q.orderId = oid ∧ q.isRecommended = true)).length = 1) ∧
    (recommendedCount raw ≠ 1 →
      submit_quote db oid uid raw = .error .validation ∧
      applyOp db (.submitQuoteOp oid uid raw) = db) := by
  constructor
  · intro db2 hok
    unfold submit_quote at hok
    simp only [ho] at hok
    rw [if_neg ?hpre] at hok
    case hpre =>
      intro hc
      rcases hst with h | h
      · exact hc.1 h
      · exact hc.2 h
    split at hok
    · cases hok
    · rename_i qs hqs
      split at hok
      · cases hok
      · cases hok
        have hcount := validateSubmitQuotes_ok_rec hqs
        simp only [notifyUsersWithRoles_quoteOptions, addActivity_quoteOptions,
          recordApproval_quoteOptions, setOrderRow_quoteOptions]
        rw [List.filter_append, List.length_append]
        have hkept : ((db.quoteOptions.filter (fun q => ¬ q.orderId = oid)).filter
            (fun q => q.orderId = oid ∧ q.isRecommended = true)).length = 0 := by
          rw [List.length_eq_zero, List.filter_eq_nil_iff]
          intro a ha
          have h2 := (List.mem_filter.1 ha).2
          simp only [decide_not, Bool.not_eq_true', decide_eq_false_iff_not] at h2
          simp [h2]
        rw [hkept]
        have hbuilt : ((buildQuotes oid uid db.nextId qs).1.filter
            (fun q => q.orderId = oid ∧ q.isRecommended = true))
            = ((buildQuotes oid uid db.nextId qs).1.filter
              (fun q => q.isRecommended)) := by
          apply List.filter_congr
          intro x hx
          have hx2 := (buildQuotes_mem oid uid qs db.nextId x hx).1
          simp [hx2]
        rw [hbuilt, buildQuotes_rec_filter, hcount]
  · intro hcount
    have hv := validateSubmitQuotes_count hcount
    have hmain : submit_quote db oid uid raw = .error .validation := by
      unfold submit_quote
      simp only [ho, hv]
      rw [if_neg ?hpre2]
      case hpre2 =>
        intro hc
        rcases hst with h | h
        · exact hc.1 h
        · exact hc.2 h
    refine ⟨hmain, by simp [applyOp, runOp, hmain]⟩

/-- witness for claim C3: a valid one-quote submission stores exactly
one recommended option; a two-recommended submission is rejected and
changes nothing. -/
theorem claim3_witness :
    ((wdb3.quoteOptions.filter
      (fun q => q.orderId = 1 ∧ q.isRecommended = true)).length = 1) ∧
    recommendedCount rawTwoRec ≠ 1 ∧
    submit_quote dbAppr 1 2 rawTwoRec = .error .validation ∧
    applyOp dbAppr (.submitQuoteOp 1 2 rawTwoRec) = dbAppr := by
  have h1 := (claim3_submit_quote_one_recommended dbAppr 1 2 [demoRawQuote] _
    rfl (Or.inl rfl)).1 wdb3 rfl
  have h2 := (claim3_submit_quote_one_recommended dbAppr 1 2 rawTwoRec _
    rfl (Or.inl rfl)).2 (by decide)
  exact ⟨h1, by decide, h2.1, h2.2⟩

/-- claim C4: from procurement_quote_submitted, approve_quote with
action approved and a selected quote of amount X writes both
Order.quote_amount and Order.estimated_cost as X (overwriting the
requester's estimate); approve_mixed_quote writes the sum of the
total_price of exactly the selected QuoteOptionItem rows — not of
entire QuoteOptions — into both fields. -/
theorem claim4_quote_amounts (db : DB) (oid uid : Nat) (o : OrderR)
    (ho : getOrder db oid = some o)
    (hst : o.status = "procurement_quote_submitted") :
    (∀ (qid : Nat) (q : QuoteOptionR) (notes : String) (db2 : DB),
      db.quoteOptions.find? (fun x => x.id = qid ∧ x.orderId = oid) = some q →
      approve_quote db oid uid "approved" (some qid) notes = .ok db2 →
      ∃ o2, getOrder db2 oid = some o2 ∧
        o2.quoteAmount = some q.quotedAmount ∧
        o2.estimatedCost = q.quotedAmount) ∧
    (∀ (ids : List Nat) (db2 : DB),
      approve_mixed_quote db oid uid ids = .ok db2 →
      ∃ o2, getOrder db2 oid = some o2 ∧
        o2.quoteAmount = some (sumTotalPrice (selectedItemQuotes db oid ids)) ∧
        o2.estimatedCost = sumTotalPrice (selectedItemQuotes db oid ids)) := by
  have hoid : o.id = oid := findOrder_id ho
  constructor
  · intro qid q notes db2 hfind hok
    unfold approve_quote at hok
    simp only [ho, hfind] at hok
    rw [if_neg (fun hc => hc hst)] at hok
    simp only [if_true] at hok
    split at hok
    · cases hok
    · split at hok
      · cases hok
        have hget := findOrder_set db.orders oid
          { o with
            quoteAmount := some q.quotedAmount,
            quoteSupplier := some q.supplierName,
            quoteNotes := some (q.notes.getD ""),
            estimatedCost := q.quotedAmount,
            status := "quote_approved_by_manager" } o ho hoid
        unfold getOrder
        simp only [addNotification_orders, notifyUsersWithRoles_orders,
          addActivity_orders, setOrderRow_orders, recordApproval_orders]
        simp only [hoid] at hget ⊢
        exact ⟨_, hget, rfl, rfl⟩
      · cases hok
        have hget := findOrder_set db.orders oid
          { o with
            quoteAmount := some q.quotedAmount,
            quoteSupplier := some q.supplierName,
            quoteNotes := some (q.notes.getD ""),
            estimatedCost := q.quotedAmount,
            status := "quote_approved_by_manager" } o ho hoid
        unfold getOrder
        simp only [addNotification_orders, notifyUsersWithRoles_orders,
          addActivity_orders, setOrderRow_orders, recordApproval_orders]
        simp only [hoid] at hget ⊢
        exact ⟨_, hget, rfl, rfl⟩
  · intro ids db2 hok
    unfold approve_mixed_quote at hok
    simp only [ho] at hok
    rw [if_neg (fun hc => hc hst)] at hok
    split at hok
    · cases hok
    · split at hok
      · cases hok
      · cases hok
        have hget := findOrder_set db.orders oid
          { o with
            quoteAmount := some (sumTotalPrice (selectedItemQuotes db oid ids)),
            quoteSupplier := some (String.intercalate ", "
              (supplierNamesOf db (firstDedup ((selectedItemQuotes db oid ids).map
                (fun qi => qi.quoteOptionId))))),
            quoteNotes := some ("Mixed quote: " ++ toString ids.length ++
              " items from " ++ toString (supplierNamesOf db
                (firstDedup ((selectedItemQuotes db oid ids).map
                  (fun qi => qi.quoteOptionId)))).length ++ " supplier(s)"),
            estimatedCost := sumTotalPrice (selectedItemQuotes db oid ids),
            status := "quote_approved_by_manager" } o ho hoid
        unfold getOrder
        simp only [addNotification_orders, notifyUsersWithRoles_orders,
          addActivity_orders, setOrderRow_orders, recordApproval_orders]
        simp only [hoid] at hget ⊢
        exact ⟨_, hget, rfl, rfl⟩

/-- witness for claim C4: in cdb4 the mixed selection of item quotes 5
(total 2 from Acme) and 9 (total 5 from Bolt) sums to 7 — not the full
quoted amounts 80 or 95 — and approving the full Acme quote (option 4)
copies its amount 80 into both fields. -/
theorem claim4_witness :
    sumTotalPrice (selectedItemQuotes cdb4 1 [5, 9]) = 7 ∧
    (∃ o2, getOrder wdb4 1 = some o2 ∧
      o2.quoteAmount = some (sumTotalPrice (selectedItemQuotes cdb4 1 [5, 9])) ∧
      o2.estimatedCost = sumTotalPrice (selectedItemQuotes cdb4 1 [5, 9])) ∧
    (∃ q, cdb4.quoteOptions.find?
        (fun x => x.id = 4 ∧ x.orderId = 1) = some q ∧
      q.quotedAmount = 80 ∧
      (∃ o2, getOrder wdb4b 1 = some o2 ∧
        o2.quoteAmount = some q.quotedAmount ∧
        o2.estimatedCost = q.quotedAmount)) := by
  refine ⟨by decide, ?_, ?_⟩
  · exact (claim4_quote_amounts cdb4 1 1 _ rfl rfl).2 [5, 9] wdb4 rfl
  · refine ⟨_, rfl, by decide, ?_⟩
    exact (claim4_quote_amounts cdb4 1 1 _ rfl rfl).1 4 _ "ok" wdb4b rfl rfl

/-- any string the collision probe returns is absent from the existing
numbers and has the TYPECODE-YEAR-sequence shape. -/
theorem probeLoop_spec (existing : List String) (t : String) (year : Nat) :
    ∀ fuel count s, probeLoop existing t year count fuel = some s →
      existing.contains s = false ∧ ∃ k, s = orderNumOf t year k := by
  intro fuel
  induction fuel with
  | zero => intro count s h; cases h
  | succ n ih =>
    intro count s h
    unfold probeLoop at h
    dsimp only at h
    split at h
    · exact ih (count + 1) s h
    · cases h
      rename_i hc
      simp only [Bool.not_eq_true] at hc
      exact ⟨hc, count, rfl⟩

/-- genFrom always emits a TYPECODE-YEAR-sequence identifier, whether
from the probe or from the timestamp fallback. -/
theorem genFrom_shape (existing : List String) (t : String)
    (start ts year : Nat) :
    ∃ k, genFrom existing t start ts year = orderNumOf t year k := by
  unfold genFrom
  split
  · rename_i s hs
    obtain ⟨k, hk⟩ := (probeLoop_spec existing t year 100 start s hs).2
    exact ⟨k, hk⟩
  · exact ⟨ts % 10000, rfl⟩

/-- claim C8: the order-number generator: every candidate the 100-step
collision probe returns is of the form TYPECODE-YEAR-sequence and does
not collide with any existing order number; genFrom always returns an
identifier of that form (falling back, when the probe exhausts its 100
attempts, to the timestamp-derived suffix ts mod 10000); and every
identifier generate_order_number returns has that form. -/
theorem claim8_order_number_generator (existing : List String) (t : String)
    (year start ts : Nat) :
    (∀ s, probeLoop existing t year start 100 = some s →
      existing.contains s = false ∧ ∃ k, s = orderNumOf t year k) ∧
    (∃ k, genFrom existing t start ts year = orderNumOf t year k) ∧
    (probeLoop existing t year start 100 = none →
      genFrom existing t start ts year = orderNumOf t year (ts % 10000)) ∧
    (∀ r, generate_order_number existing t year ts = some r →
      ∃ k, r = orderNumOf t year k) := by
  refine ⟨fun s hs => probeLoop_spec existing t year 100 start s hs,
    genFrom_shape existing t start ts year, ?_, ?_⟩
  · intro h
    unfold genFrom
    rw [h]
  · intro r hr
    unfold generate_order_number at hr
    cases hcs : computeStart existing t year with
    | none => rw [hcs] at hr; cases hr
    | some st =>
      rw [hcs] at hr
      cases hr
      exact genFrom_shape existing t st ts year

/-- witness for claim C8: with MED-2026-0001 taken, the probe starting
at 1 skips the collision and returns the fresh MED-2026-0002, which the
full generator also returns. -/
theorem claim8_witness :
    probeLoop ["MED-2026-0001"] "medicine" 2026 1 100 =
      some "MED-2026-0002" ∧
    (["MED-2026-0001"] : List String).contains "MED-2026-0002" = false ∧
    (∃ k, ("MED-2026-0002" : String) = orderNumOf "medicine" 2026 k) ∧
    generate_order_number ["MED-2026-0001"] "medicine" 2026 0 =
      some "MED-2026-0002" := by
  have h := (claim8_order_number_generator ["MED-2026-0001"] "medicine"
    2026 1 0).1 "MED-2026-0002" (by rfl)
  exact ⟨rfl, h.1, h.2, by decide⟩

/-- claim C9: split_and_approve with exactly one group that covers the
order's items creates no new order: the original order itself moves from
pending to approved_by_manager (not completed), the item table is
untouched, and the response lists the original order id as the single
created order. -/
theorem claim9_split_single_group (db : DB) (oid uid : Nat) (o : OrderR)
    (g : List Nat) (year ts : Nat)
    (ho : getOrder db oid = some o)
    (hrole : roleOf db uid = some "manager" ∨ roleOf db uid = some "super_admin")
    (hst : o.status = "pending")
    (hitems : ¬ (db.items.filter (fun i => i.orderId = oid)).length = 0)
    (hcover : (((db.items.filter (fun i => i.orderId = oid)).map
        (fun i => i.id)).all (fun i => g.contains i) = true) ∧
      (g.all (fun i => ((db.items.filter (fun i => i.orderId = oid)).map
        (fun i => i.id)).contains i) = true)) :
    ∃ db2, split_and_approve db oid uid [g] year ts = .ok (db2, [oid]) ∧
      getOrder db2 oid = some { o with status := "approved_by_manager" } ∧
      db2.items = db.items ∧
      db2.orders.length = db.orders.length := by
  have hoid : o.id = oid := findOrder_id ho
  have hmain : split_and_approve db oid uid [g] year ts =
      .ok (addActivity (setOrderRow db { o with status := "approved_by_manager" })
        ⟨oid, "manager_approved", uid, some o.status, some "approved_by_manager"⟩,
        [oid]) := by
    unfold split_and_approve
    simp only [ho]
    rw [if_neg (fun hc => hrole.elim (fun h => hc.1 h) (fun h => hc.2 h))]
    rw [if_neg (fun hc => hc hst)]
    rw [if_neg (fun h : ([g] : List (List Nat)).length = 0 => Nat.one_ne_zero h)]
    rw [if_neg hitems]
    rw [if_neg (fun hcn => hcn hcover)]
    rw [if_pos (show ([g] : List (List Nat)).length = 1 by rfl)]
  have hget := findOrder_set db.orders oid
    { o with status := "approved_by_manager" } o ho hoid
  refine ⟨_, hmain, ?_, rfl, ?_⟩
  · unfold getOrder
    simp only [addActivity_orders, setOrderRow_orders]
    simp only [hoid] at hget ⊢
    exact hget
  · simp only [addActivity_orders, setOrderRow_orders]
    simp

/-- witness for claim C9: splitting the pending two-item order of
db2items with the single full group [2, 3] succeeds, reports order 1 as
the one created order, approves it and leaves orders and items counts
unchanged. -/
theorem claim9_witness :
    ∃ db2, split_and_approve db2items 1 1 [[2, 3]] 2026 124 =
        .ok (db2, [1]) ∧
      (getOrder db2 1).map OrderR.status = some "approved_by_manager" ∧
      db2.items = db2items.items ∧
      db2.orders.length = db2items.orders.length := by
  obtain ⟨db2, h1, h2, h3, h4⟩ := claim9_split_single_group db2items 1 1 _
    [2, 3] 2026 124 rfl (Or.inl rfl) rfl (by decide) (by decide)
  exact ⟨db2, h1, by rw [h2]; rfl, h3, h4⟩

/-- claim C2 counterexample: the partition check of split_and_approve
only compares the two id SETS (every item covered, every provided id
known), so the call on the pending two-item order with groups
[[2, 3], [3]] — item 3 duplicated across groups — is accepted: two new
orders are created, the original is completed, and the Masks item row
(id 3) is copied into both groups, so it now exists three times. -/
theorem claim2_split_duplicate_accepted :
    (¬ (([2, 3] ++ [3]) : List Nat).Nodup) ∧
    (∃ res, split_and_approve db2items 1 1 [[2, 3], [3]] 2026 124 =
      .ok res) ∧
    wdb2.orders.length = db2items.orders.length + 2 ∧
    (getOrder wdb2 1).map OrderR.status = some "completed" ∧
    (db2items.items.filter (fun i => i.itemName = "Masks")).length = 1 ∧
    (wdb2.items.filter (fun i => i.itemName = "Masks")).length = 3 := by
  exact ⟨by decide, ⟨_, rfl⟩, by decide, by decide, by decide, by decide⟩

/-- claim C10 counterexample: the is_not_available placeholder branch of
submit_quote is dead code.  QuoteOptionItemCreateSerializer declares no
is_not_available field and makes both prices required, so validated_data
never carries the flag and never misses a price: a quote marking item 2
not available with prices 0.05/0.50 is stored with exactly those prices
and is_not_available = false (not the 0.01 placeholder), and a quote
omitting unit_price is rejected as a validation error instead of
defaulting to 0.01. -/
theorem claim10_not_available_flag_dropped :
    rawNA.item_quotes = some [{
      order_item_id := some 2,
      unit_price := some 5,
      total_price := some 50,
      availability := none,
      notes := none,
      is_not_available := some true }] ∧
    submit_quote dbAppr 1 2 [rawNA] = .ok wdb10 ∧
    (wdb10.quoteItems.filter (fun qi => qi.orderItemId = 2)).map
      (fun qi => (qi.unitPrice, qi.totalPrice, qi.isNotAvailable)) =
      [(5, 50, false)] ∧
    submit_quote dbAppr 1 2 [rawNoPrice] = .error .validation := by
  exact ⟨rfl, rfl, by decide, rfl⟩

end Mutanda
